import Mathlib

/-!
Shallow embedding of the SmartSched AI optimization engine
(`src/ai-engine`): the domain model (`src/models.py`), the shared
conflict detector and scorer (`src/optimization/base_optimizer.py`),
the three engines (`csp_optimizer.py`, `genetic_optimizer.py`,
`ilp_optimizer.py`) and the dispatcher (`src/optimization_engine.py`).

Modelling conventions.
* Python floats are embedded as `ℚ`; every numeric value handled by
  the scorer and the GA fitness arises from integers and divisions,
  so the rational embedding is exact.
* Python dicts with string keys are embedded as association lists in
  insertion order, which is what the source relies on.
* The external solvers (CP-SAT, CBC) are oracles: an engine's
  `optimize` takes the solver outcome (status plus variable
  assignment, or a raised exception modelled as `Except.error`) as an
  explicit argument.
* `execution_time_seconds` is wall-clock time and is not modelled;
  no claim concerns it.
-/

namespace SmartSched

/-- Enum `CourseType` from `src/models.py`. -/
inductive CourseType where
  | major | minor | skill_based | ability_enhancement | value_added
deriving DecidableEq, Repr

/-- Enum `SessionType` from `src/models.py`. -/
inductive SessionType where
  | theory | lab | internship | project
deriving DecidableEq, Repr

/-- Enum `OptimizationObjective` from `src/models.py`. -/
inductive OptimizationObjective where
  | minimize_conflicts | balance_workload | maximize_room_utilization | minimize_gaps
deriving DecidableEq, Repr

/-- `TimetableConfig` from `src/models.py` (break slot records are
informational and never consulted by the engines; they are kept as
label/start/end triples). -/
structure TimetableConfig where
  slot_duration_minutes : ℕ
  college_start_time : String
  college_end_time : String
  slots_per_day : ℕ
  break_slots : List (String × String × String)
  lunch_duration_minutes : ℕ
deriving DecidableEq, Repr

/-- `CourseData` from `src/models.py`. -/
structure CourseData where
  id : String
  code : String
  name : String
  credits : ℕ
  course_type : CourseType
  session_type : SessionType
  student_strength : ℕ
  requires_lab : Bool
  consecutive_slots_required : ℕ
  preferred_time_slots : List String
deriving DecidableEq, Repr

/-- `FacultyData` from `src/models.py`. -/
structure FacultyData where
  id : String
  name : String
  email : String
  specializations : List String
  max_workload_hours : ℕ
  availability_slots : List String
  preferred_courses : List String
deriving DecidableEq, Repr

/-- `RoomData` from `src/models.py`. -/
structure RoomData where
  id : String
  name : String
  capacity : ℕ
  room_type : String
  location_block : String
  equipment : List String
  course_restrictions : List String
deriving DecidableEq, Repr

/-- `StudentData` from `src/models.py`. -/
structure StudentData where
  id : String
  program_id : String
  semester : ℕ
  enrolled_courses : List String
  total_credits : ℕ
deriving DecidableEq, Repr

/-- `OptimizationRequest` from `src/models.py` (the free-form
`constraints` dict is never read by any engine and is dropped). -/
structure OptimizationRequest where
  config : TimetableConfig
  courses : List CourseData
  faculty : List FacultyData
  rooms : List RoomData
  students : List StudentData
  objectives : List OptimizationObjective
deriving DecidableEq, Repr

/-- `TimetableSlot` from `src/models.py`. -/
structure TimetableSlot where
  day : String
  time_start : String
  time_end : String
  course_id : String
  faculty_id : String
  room_id : String
  student_groups : List String
deriving DecidableEq, Repr

/-- A conflict record as built by `BaseOptimizer.detect_conflicts`
(a Python dict with keys type/description/affected_slots/severity). -/
structure Conflict where
  type : String
  description : String
  affected_slots : List String
  severity : String
deriving DecidableEq, Repr

/-- `OptimizationResult` from `src/models.py`, without the wall-clock
`execution_time_seconds` field. -/
structure OptimizationResult where
  success : Bool
  message : String
  timetable_slots : List TimetableSlot
  conflicts : List Conflict
  optimization_score : ℚ
  algorithm_used : String
  workload_distribution : List (String × ℕ)
deriving DecidableEq, Repr

/-! ### Shared scorer: `BaseOptimizer.calculate_optimization_score` -/

/-- Body of `BaseOptimizer.calculate_optimization_score`
(`base_optimizer.py` lines 41-65), as a function of the two result
fields it reads: start from 100, subtract `5 * len(conflicts)`, and
when the workload dict is non-empty add `max(0, 20 - variance)` of the
workload values, finally `max(0, min(100, score))`. -/
def score_core (conflicts : List Conflict) (wd : List (String × ℕ)) : ℚ :=
  let base1 : ℚ := 100 - (conflicts.length : ℚ) * 5
  let base2 : ℚ :=
    if wd.isEmpty then base1
    else
      let workloads : List ℚ := wd.map (fun p => (p.2 : ℚ))
      if workloads.isEmpty then base1
      else
        let mean : ℚ := workloads.sum / (workloads.length : ℚ)
        let variance : ℚ :=
          (workloads.map (fun w => (w - mean) ^ 2)).sum / (workloads.length : ℚ)
        base1 + max 0 (20 - variance)
  max 0 (min 100 base2)

/-- `BaseOptimizer.calculate_optimization_score(result)`: reads
`result.conflicts` and `result.workload_distribution`. -/
def calculate_optimization_score (result : OptimizationResult) : ℚ :=
  score_core result.conflicts result.workload_distribution

/-! ### Conflict detector: `BaseOptimizer.detect_conflicts` -/

/-- Grouping key `f"{slot.day}_{slot.time_start}"` from
`detect_conflicts`. -/
def slotKey (s : TimetableSlot) : String :=
  s.day ++ "_" ++ s.time_start

/-- One step of building the `time_slots` dict: append the slot to its
key's group, creating the key at the end on first sight (Python dicts
preserve insertion order). -/
def addToGroups (acc : List (String × List TimetableSlot)) (s : TimetableSlot) :
    List (String × List TimetableSlot) :=
  match acc with
  | [] => [(slotKey s, [s])]
  | (k, g) :: rest =>
      if slotKey s = k then (k, g ++ [s]) :: rest
      else (k, g) :: addToGroups rest s

/-- The `time_slots` dict of `detect_conflicts`: slots grouped by
`(day, time_start)` key in insertion order. -/
def groupSlots (l : List TimetableSlot) : List (String × List TimetableSlot) :=
  l.foldl addToGroups []

/-- Replace the value at a key of an association list, appending the
pair on a fresh key (Python `d[k] = v`). -/
def assocSet (m : List (String × TimetableSlot)) (k : String) (v : TimetableSlot) :
    List (String × TimetableSlot) :=
  match m with
  | [] => [(k, v)]
  | (k0, v0) :: rest =>
      if k = k0 then (k, v) :: rest else (k0, v0) :: assocSet rest k v

/-- Lookup in an association list (Python `k in d` / `d[k]`). -/
def assocFind (m : List (String × TimetableSlot)) (k : String) : Option TimetableSlot :=
  match m with
  | [] => none
  | (k0, v0) :: rest => if k = k0 then some v0 else assocFind rest k

/-- The faculty pass of `detect_conflicts` over one group: walk the
group keeping the `faculty_slots` dict; a slot whose `faculty_id` is
already a key emits a `faculty_conflict` whose affected slots pair the
stored slot's course with the current one; the dict entry is then
overwritten. -/
def facultyPass (timeKey : String) :
    List TimetableSlot → List (String × TimetableSlot) → List Conflict
  | [], _ => []
  | s :: rest, seen =>
      match assocFind seen s.faculty_id with
      | some prev =>
          { type := "faculty_conflict"
            description := "Faculty " ++ s.faculty_id ++
              " assigned to multiple classes at " ++ timeKey
            affected_slots := [prev.course_id, s.course_id]
            severity := "critical" } ::
          facultyPass timeKey rest (assocSet seen s.faculty_id s)
      | none => facultyPass timeKey rest (assocSet seen s.faculty_id s)

/-- The room pass of `detect_conflicts` over one group (the
`room_slots` dict). -/
def roomPass (timeKey : String) :
    List TimetableSlot → List (String × TimetableSlot) → List Conflict
  | [], _ => []
  | s :: rest, seen =>
      match assocFind seen s.room_id with
      | some prev =>
          { type := "room_conflict"
            description := "Room " ++ s.room_id ++
              " assigned to multiple classes at " ++ timeKey
            affected_slots := [prev.course_id, s.course_id]
            severity := "critical" } ::
          roomPass timeKey rest (assocSet seen s.room_id s)
      | none => roomPass timeKey rest (assocSet seen s.room_id s)

/-- `BaseOptimizer.detect_conflicts` (`base_optimizer.py` lines
67-112): group by key, then for every group in insertion order emit
the faculty conflicts followed by the room conflicts. -/
def detect_conflicts (timetable_slots : List TimetableSlot) : List Conflict :=
  (groupSlots timetable_slots).foldl
    (fun acc kg => acc ++ facultyPass kg.1 kg.2 [] ++ roomPass kg.1 kg.2 []) []

/-! ### Workload distribution (identical helper in all three engines) -/

/-- Increment the counter of a key in an association list, appending
`(k, 1)` on a fresh key (`workload[f] = workload.get(f, 0) + 1`). -/
def assocIncr (m : List (String × ℕ)) (k : String) : List (String × ℕ) :=
  match m with
  | [] => [(k, 1)]
  | (k0, n) :: rest =>
      if k = k0 then (k, n + 1) :: rest else (k0, n) :: assocIncr rest k

/-- `_calculate_workload_distribution`: count the slots of every
non-empty `faculty_id`, keys in first-seen order. -/
def calculate_workload_distribution (timetable_slots : List TimetableSlot) :
    List (String × ℕ) :=
  timetable_slots.foldl
    (fun m s => if s.faculty_id ≠ "" then assocIncr m s.faculty_id else m) []

/-! ### Dispatcher selection: `OptimizationEngine._select_best_algorithm` -/

/-- `OptimizationEngine._select_best_algorithm`
(`optimization_engine.py` lines 103-132). -/
def select_best_algorithm (request : OptimizationRequest) : String :=
  let problem_size := request.courses.length * request.faculty.length *
    request.rooms.length * request.config.slots_per_day * 5
  if problem_size < 1000 then ("csp")
  else if problem_size < 10000 then
    if OptimizationObjective.minimize_conflicts ∈ request.objectives then ("ilp")
    else ("csp")
  else ("genetic")

/-- Written from the spec's words for §4.G `select(request)`: compute
`size = |courses| * |faculty| * |rooms| * slots_per_day * 5`; below
1000 CSP; in [1000, 10000) ILP when `minimize_conflicts` is among the
objectives, else CSP; at or above 10000 GA. -/
def selectSpec (request : OptimizationRequest) : String :=
  let size := request.courses.length * request.faculty.length *
    request.rooms.length * request.config.slots_per_day * 5
  if size < 1000 then ("csp")
  else if 1000 ≤ size ∧ size < 10000 then
    if OptimizationObjective.minimize_conflicts ∈ request.objectives then ("ilp")
    else ("csp")
  else ("genetic")

/-! ### Claim C3: the shared scorer agrees with the spec formula -/

/-- Written from the spec's words for the §4.B score: start at 100,
subtract `5 * len(conflicts)`, if workloads exist add the balance
bonus `max(0, 20 - variance)` with the population variance in the
`mean of squares minus squared mean` form, and clamp into [0, 100]. -/
def scoreSpec (conflicts : List Conflict) (wd : List (String × ℕ)) : ℚ :=
  let counts : List ℚ := wd.map (fun p => (p.2 : ℚ))
  let afterConflicts : ℚ := 100 - 5 * (conflicts.length : ℚ)
  let total : ℚ :=
    if counts.length = 0 then afterConflicts
    else
      let n : ℚ := (counts.length : ℚ)
      let mean : ℚ := counts.sum / n
      let variance : ℚ := (counts.map (fun w => w ^ 2)).sum / n - mean ^ 2
      afterConflicts + max 0 (20 - variance)
  if total < 0 then 0 else if 100 < total then 100 else total

lemma sum_sq_sub_const (ws : List ℚ) (m : ℚ) :
    (ws.map (fun w => (w - m) ^ 2)).sum =
      (ws.map (fun w => w ^ 2)).sum - 2 * m * ws.sum + (ws.length : ℚ) * m ^ 2 := by
  induction ws with
  | nil => simp
  | cons a t ih =>
      simp only [List.map_cons, List.sum_cons, List.length_cons, ih]
      push_cast
      ring

lemma variance_alt (ws : List ℚ) (hw : ws.length ≠ 0) :
    (ws.map (fun w => (w - ws.sum / (ws.length : ℚ)) ^ 2)).sum / (ws.length : ℚ) =
      (ws.map (fun w => w ^ 2)).sum / (ws.length : ℚ) - (ws.sum / (ws.length : ℚ)) ^ 2 := by
  have hn : ((ws.length : ℚ)) ≠ 0 := by exact_mod_cast hw
  rw [sum_sq_sub_const]
  field_simp
  ring

lemma clamp_as_ite (x y : ℚ) (hxy : x = y) :
    max 0 (min 100 x) = if y < 0 then 0 else if 100 < y then 100 else y := by
  subst hxy
  rcases lt_trichotomy x 0 with h | h | h
  · rw [min_eq_right (by linarith), max_eq_left (by linarith), if_pos h]
  · rw [min_eq_right (by linarith), max_eq_right (by linarith),
      if_neg (by linarith), if_neg (by linarith)]
  · by_cases h100 : 100 < x
    · rw [min_eq_left (by linarith), max_eq_right (by norm_num), if_neg (by linarith),
        if_pos h100]
    · push_neg at h100
      rw [min_eq_right h100, max_eq_right (le_of_lt h), if_neg (by linarith),
        if_neg (by push_neg; exact h100)]

/-- Claim C3: for every result record, the shared scorer
`calculate_optimization_score` computes exactly the spec formula:
100, minus 5 per conflict, plus the clamped balance bonus
`max(0, 20 - population variance of the workload counts)` when the
workload map is non-empty, clamped into [0, 100]. -/
theorem C3_score_formula (conflicts : List Conflict) (wd : List (String × ℕ)) :
    score_core conflicts wd = scoreSpec conflicts wd := by
  unfold score_core scoreSpec
  by_cases hwd : wd = []
  · subst hwd
    simp only [List.isEmpty_nil, List.map_nil, List.length_nil, if_true, dite_eq_ite,
      if_pos rfl]
    exact clamp_as_ite _ _ (by ring)
  · have hne : wd.isEmpty = false := by
      simpa [List.isEmpty_iff] using hwd
    have hmapne : (wd.map (fun p => ((p.2 : ℚ)))).isEmpty = false := by
      simp [List.isEmpty_iff, hwd]
    have hlen : (wd.map (fun p => ((p.2 : ℚ)))).length ≠ 0 := by
      simp [List.length_map, List.length_eq_zero]
      exact hwd
    simp only [hne, hmapne, Bool.false_eq_true, if_false, dite_eq_ite, if_neg hlen]
    refine clamp_as_ite _ _ ?_
    rw [variance_alt _ hlen]
    ring

/-! ### Claim C4: dispatcher selection -/

/-- Claim C4: the dispatcher's algorithm selection is exactly the
size-based piecewise function of the spec (`size < 1000 → csp`,
`1000 ≤ size < 10000 → ilp` when `minimize_conflicts` is requested and
otherwise `csp`, `size ≥ 10000 → genetic`), and two calls on the same
request pick the same engine. -/
theorem C4_dispatcher_selection (request : OptimizationRequest) :
    select_best_algorithm request = selectSpec request ∧
    (∀ r1 r2 : OptimizationRequest, r1 = r2 →
      select_best_algorithm r1 = select_best_algorithm r2) := by
  constructor
  · unfold select_best_algorithm selectSpec
    set s := request.courses.length * request.faculty.length *
      request.rooms.length * request.config.slots_per_day * 5 with hs
    by_cases h1 : s < 1000
    · simp [h1]
    · by_cases h2 : s < 10000
      · simp [h1, h2, Nat.le_of_not_lt h1]
      · simp [h1, h2]
  · intro r1 r2 h
    rw [h]

/-- A timetable config fixture used by witnesses, matching the spec's
scenario seed 6 medium case (8 slots per day). -/
def fixtureConfig8 : TimetableConfig :=
  { slot_duration_minutes := 50, college_start_time := "08:30",
    college_end_time := "17:30", slots_per_day := 8,
    break_slots := [], lunch_duration_minutes := 60 }

/-- A request fixture for the spec's scenario seed 6 medium case: 5
courses, 5 faculty, 4 rooms, 8 slots per day, size 4000, objective
`minimize_conflicts`. -/
def fixtureMediumRequest : OptimizationRequest :=
  { config := fixtureConfig8
    courses := List.replicate 5
      { id := "c", code := "C", name := "n", credits := 3,
        course_type := CourseType.major, session_type := SessionType.theory,
        student_strength := 30, requires_lab := false,
        consecutive_slots_required := 1, preferred_time_slots := [] }
    faculty := List.replicate 5
      { id := "f", name := "F", email := "e", specializations := [],
        max_workload_hours := 12, availability_slots := [], preferred_courses := [] }
    rooms := List.replicate 4
      { id := "r", name := "R", capacity := 40, room_type := "classroom",
        location_block := "A", equipment := [], course_restrictions := [] }
    students := []
    objectives := [OptimizationObjective.minimize_conflicts] }

/-! ### Qualification checks (GA and ILP sites) -/

/-- Character-list prefix test (used to express Python's substring
operator `in`). -/
def charsStartWith : List Char → List Char → Bool
  | [], _ => true
  | _ :: _, [] => false
  | a :: as, b :: bs => a = b && charsStartWith as bs

/-- Character-list containment: the needle occurs contiguously in the
haystack (Python `needle in hay` on strings). -/
def charsContain (needle : List Char) : List Char → Bool
  | [] => needle.isEmpty
  | b :: bs => charsStartWith needle (b :: bs) || charsContain needle bs

/-- Python `needle in hay` on strings. -/
def strHasSub (hay needle : String) : Bool :=
  charsContain needle.toList hay.toList

/-- Python `str.lower()` (character-wise lowercasing; written over
the character list so that it reduces in the kernel — `String.toLower`
itself is defined through byte positions). -/
def strToLower (s : String) : String :=
  String.mk (s.data.map Char.toLower)

/-- The GA's qualification test, used both by
`GeneticOptimizer.validate_constraints` (line 124) and
`GeneticOptimizer._create_random_individual` (line 153):
`any(spec in course.name.lower() for spec in f.specializations)` —
note the specialization itself is NOT lowercased. -/
def gaQualified (f : FacultyData) (course : CourseData) : Bool :=
  f.specializations.any (fun spec => strHasSub (strToLower course.name) spec)

/-- The ILP's qualification test from `ILPOptimizer._add_constraints`
(line 243): `any(spec.lower() in course.name.lower() for spec in
f.specializations)` — both sides lowercased. -/
def ilpQualified (f : FacultyData) (course : CourseData) : Bool :=
  f.specializations.any (fun spec => strHasSub (strToLower course.name) (strToLower spec))

/-- A course fixture whose name contains "math" only in lowercase
form after lowercasing. -/
def mathCourse : CourseData :=
  { id := "c1", code := "MTH101", name := "Mathematics 101", credits := 3,
    course_type := CourseType.major, session_type := SessionType.theory,
    student_strength := 30, requires_lab := false,
    consecutive_slots_required := 1, preferred_time_slots := [] }

/-- Faculty fixture with an upper-case specialization. -/
def facultyUpper : FacultyData :=
  { id := "f1", name := "F", email := "f at x", specializations := ["MATH"],
    max_workload_hours := 12, availability_slots := [], preferred_courses := [] }

/-- Faculty fixture identical to `facultyUpper` except the
specialization is lower-case. -/
def facultyLower : FacultyData :=
  { id := "f1", name := "F", email := "f at x", specializations := ["math"],
    max_workload_hours := 12, availability_slots := [], preferred_courses := [] }

/-- Claim C6 evaluated on the code: at the GA sites, qualification is
NOT invariant under changing the case of a specialization (the code
lowercases only the course name): with specialization "MATH" and
course name "Mathematics 101" the GA says unqualified, with "math" it
says qualified, while the ILP site (which lowercases both sides) says
qualified for both. -/
theorem C6_qualification_not_case_insensitive :
    gaQualified facultyUpper mathCourse = false ∧
    gaQualified facultyLower mathCourse = true ∧
    ilpQualified facultyUpper mathCourse = true ∧
    ilpQualified facultyLower mathCourse = true := by
  decide

/-! ### Slot-to-time mapping (`_generate_time_mapping`, duplicated in
all three engines) -/

/-- Parse "HH:MM" to minutes after midnight (Python
`datetime.strptime(s, "%H:%M")`; malformed strings, on which Python
would raise, default to 0 and are never produced by the engines). -/
def parseHM (s : String) : ℕ :=
  match s.splitOn (":") with
  | [h, m] => (h.toNat?.getD 0) * 60 + (m.toNat?.getD 0)
  | _ => 0

/-- Two-digit decimal rendering used by `strftime`. -/
def twoDigits (n : ℕ) : String :=
  if n < 10 then ("0") ++ toString n else toString n

/-- Render minutes after midnight as "HH:MM" (`strftime"%H:%M"`;
hours wrap modulo 24 exactly as `datetime` does). -/
def fmtHM (m : ℕ) : String :=
  twoDigits (m / 60 % 24) ++ ":" ++ twoDigits (m % 60)

/-- `_generate_time_mapping(config)[slot]`: start and end wall-clock
strings of a slot index. -/
def generate_time_mapping (config : TimetableConfig) (slot : ℕ) : String × String :=
  let start := parseHM config.college_start_time + slot * config.slot_duration_minutes
  (fmtHM start, fmtHM (start + config.slot_duration_minutes))

/-! ### CSP engine (`csp_optimizer.py`) -/

/-- The five weekday names hard-coded in each engine. -/
def days : List String :=
  ["Monday", "Tuesday", "Wednesday", "Thursday", "Friday"]

/-- The (day, slot) grid enumerated by the CSP engine, in the source's
nesting order (day outer, slot inner). -/
def slotGrid (slots_per_day : ℕ) : List (String × ℕ) :=
  days.flatMap (fun d => (List.range slots_per_day).map (fun s => (d, s)))

/-- CP-SAT termination statuses relevant to `CSPOptimizer.optimize`. -/
inductive CpStatus where
  | OPTIMAL | FEASIBLE | INFEASIBLE | MODEL_INVALID | UNKNOWN
deriving DecidableEq, Repr

/-- A total assignment to the CSP decision variables; the CP-SAT
solver is an external oracle, so the solved values are a parameter of
the embedding. -/
structure CspAssignment where
  course_slot : String → String → ℕ → Bool
  faculty_assignment : String → String → Bool
  room_assignment : String → String → Bool

/-- `CSPOptimizer.validate_constraints` (lines 93-110): aggregate
faculty capacity, then a room-capacity check per course. -/
def csp_validate (request : OptimizationRequest) : List String :=
  (if (request.courses.map (fun c => c.credits)).sum >
      (request.faculty.map (fun f => f.max_workload_hours)).sum
   then ["Insufficient faculty capacity for course load"] else []) ++
  request.courses.filterMap (fun course =>
    if (request.rooms.filter (fun r => course.student_strength ≤ r.capacity)).isEmpty
    then some ("No room with sufficient capacity for course " ++ course.code)
    else none)

/-- Constraint 1 of `CSPOptimizer._add_constraints`: each course is
scheduled for exactly its credit hours (the model adds it only when
the course's slot-variable list is non-empty, i.e. when the grid is
non-empty). Constraints 2-4 (single faculty, single room, workload
linking) and the capacity pinning are not consulted by any claim and
are not reproduced here. -/
def csp_credit_constraint (request : OptimizationRequest) (a : CspAssignment) : Prop :=
  ∀ c ∈ request.courses,
    slotGrid request.config.slots_per_day = [] ∨
    (slotGrid request.config.slots_per_day).countP
      (fun ds => a.course_slot c.id ds.1 ds.2) = c.credits

/-- `CSPOptimizer._extract_solution`: per course, the first faculty
and first room whose assignment variable is true (empty string when
none), and one output slot per true (day, slot) grid variable. -/
def csp_extract_solution (request : OptimizationRequest) (a : CspAssignment) :
    List TimetableSlot :=
  request.courses.flatMap (fun course =>
    let assigned_faculty : Option String :=
      (request.faculty.find? (fun f => a.faculty_assignment course.id f.id)).map
        (fun f => f.id)
    let assigned_room : Option String :=
      (request.rooms.find? (fun r => a.room_assignment course.id r.id)).map
        (fun r => r.id)
    (slotGrid request.config.slots_per_day).filterMap (fun ds =>
      if a.course_slot course.id ds.1 ds.2 then
        some { day := ds.1
               time_start := (generate_time_mapping request.config ds.2).1
               time_end := (generate_time_mapping request.config ds.2).2
               course_id := course.id
               faculty_id := assigned_faculty.getD ("")
               room_id := assigned_room.getD ("")
               student_groups := [course.id] }
      else none))

/-- Python `'; '.join(violations)`. -/
def joinSemicolon : List String → String
  | [] => ""
  | [v] => v
  | v :: rest => v ++ "; " ++ joinSemicolon rest

/-- The failure result record every engine builds (empty slots, the
pydantic defaults for conflicts and workload, score 0). -/
def failureResult (alg msg : String) : OptimizationResult :=
  { success := false, message := msg, timetable_slots := [], conflicts := [],
    optimization_score := 0, algorithm_used := alg, workload_distribution := [] }

/-- `CSPOptimizer.optimize` (lines 18-91).  The whole try-block —
model building, `solver.Solve`, extraction — is the oracle `solve`: a
raised exception is `Except.error` with the exception text, a
completed solve is the final status plus the solved variable values. -/
def csp_optimize (request : OptimizationRequest)
    (solve : Except String (CpStatus × CspAssignment)) : OptimizationResult :=
  let violations := csp_validate request
  if violations ≠ [] then
    failureResult ("CSP-OR-Tools") ("Constraint violations: " ++ joinSemicolon violations)
  else
    match solve with
    | .error e => failureResult ("CSP-OR-Tools") ("Optimization failed: " ++ e)
    | .ok (status, a) =>
        if status = CpStatus.OPTIMAL ∨ status = CpStatus.FEASIBLE then
          let timetable_slots := csp_extract_solution request a
          let conflicts := detect_conflicts timetable_slots
          let workload_dist := calculate_workload_distribution timetable_slots
          let base : OptimizationResult :=
            { success := true, message := "Optimization completed successfully",
              timetable_slots := timetable_slots, conflicts := conflicts,
              optimization_score := 0, algorithm_used := "CSP-OR-Tools",
              workload_distribution := workload_dist }
          { base with optimization_score := calculate_optimization_score base }
        else failureResult ("CSP-OR-Tools") ("No feasible solution found")

/-- Solver parameters that `CSPOptimizer.optimize` sets on its
`CpSolver` before calling `Solve`: it sets none at all — in
particular no `max_time_in_seconds`, so the configured
`CSP_SOLVER_TIMEOUT` is never applied. -/
def cspSolverMaxTimeInSeconds : Option ℕ := none

/-- Default of `Settings.CSP_SOLVER_TIMEOUT` from
`config/settings.py` line 20 (seconds). -/
def CSP_SOLVER_TIMEOUT : ℕ := 300

/-- Claim C7 evaluated on the code: `CSPOptimizer.optimize` never
installs any time limit on the CP-SAT solver (so the solve is NOT
bounded by the configured timeout), while the second half of the
claim does hold: a completed solve whose status is neither OPTIMAL
nor FEASIBLE yields exactly the failure record with message ("No)
feasible solution found", no slots and score 0. -/
theorem C7_csp_timeout_unwired :
    cspSolverMaxTimeInSeconds = none ∧
    cspSolverMaxTimeInSeconds ≠ some CSP_SOLVER_TIMEOUT ∧
    ∀ (request : OptimizationRequest) (status : CpStatus) (a : CspAssignment),
      csp_validate request = [] →
      status ≠ CpStatus.OPTIMAL →
      status ≠ CpStatus.FEASIBLE →
      csp_optimize request (.ok (status, a)) =
        failureResult ("CSP-OR-Tools") ("No feasible solution found") := by
  refine ⟨rfl, by simp [cspSolverMaxTimeInSeconds], ?_⟩
  intro request status a hval hopt hfeas
  unfold csp_optimize
  rw [hval]
  simp [hopt, hfeas]

/-- An all-false CSP assignment, used as a concrete oracle value. -/
def emptyCspAssignment : CspAssignment :=
  { course_slot := fun _ _ _ => false
    faculty_assignment := fun _ _ => false
    room_assignment := fun _ _ => false }

/-- A request with no courses (and no other entities). -/
def emptyRequest : OptimizationRequest :=
  { config := fixtureConfig8, courses := [], faculty := [], rooms := [],
    students := [], objectives := [] }

/-- Witness for C7: the empty request validates cleanly and an
UNKNOWN status (CP-SAT's timeout status) produces the exact failure
record. -/
theorem C7_csp_timeout_unwired_witness :
    csp_validate emptyRequest = [] ∧
    csp_optimize emptyRequest (.ok (CpStatus.UNKNOWN, emptyCspAssignment)) =
      failureResult ("CSP-OR-Tools") ("No feasible solution found") :=
  ⟨by decide,
   C7_csp_timeout_unwired.2.2 emptyRequest CpStatus.UNKNOWN emptyCspAssignment
     (by decide) (by decide) (by decide)⟩

/-- Claim C10: on a request with no courses the CSP validator finds
no violations, and `optimize` (when the solve completes OPTIMAL or
FEASIBLE, as CP-SAT does on an empty model) returns success with no
slots, no conflicts, empty workload distribution and score exactly
100. -/
theorem C10_empty_courses_success (request : OptimizationRequest)
    (status : CpStatus) (a : CspAssignment)
    (hempty : request.courses = [])
    (hstatus : status = CpStatus.OPTIMAL ∨ status = CpStatus.FEASIBLE) :
    csp_validate request = [] ∧
    (csp_optimize request (.ok (status, a))).success = true ∧
    (csp_optimize request (.ok (status, a))).timetable_slots = [] ∧
    (csp_optimize request (.ok (status, a))).conflicts = [] ∧
    (csp_optimize request (.ok (status, a))).workload_distribution = [] ∧
    (csp_optimize request (.ok (status, a))).optimization_score = 100 := by
  have hval : csp_validate request = [] := by
    unfold csp_validate
    rw [hempty]
    simp
  have hext : csp_extract_solution request a = [] := by
    unfold csp_extract_solution
    rw [hempty]
    rfl
  refine ⟨hval, ?_⟩
  unfold csp_optimize
  rw [hval]
  simp only [ne_eq, not_true_eq_false, if_neg, if_pos hstatus, hext]
  norm_num [detect_conflicts, groupSlots, calculate_workload_distribution,
    calculate_optimization_score, score_core]

/-- Witness for C10: the concrete empty request with an OPTIMAL
solve. -/
theorem C10_empty_courses_success_witness :
    csp_validate emptyRequest = [] ∧
    (csp_optimize emptyRequest (.ok (CpStatus.OPTIMAL, emptyCspAssignment))).success = true ∧
    (csp_optimize emptyRequest (.ok (CpStatus.OPTIMAL, emptyCspAssignment))).timetable_slots = [] ∧
    (csp_optimize emptyRequest (.ok (CpStatus.OPTIMAL, emptyCspAssignment))).conflicts = [] ∧
    (csp_optimize emptyRequest (.ok (CpStatus.OPTIMAL, emptyCspAssignment))).workload_distribution = [] ∧
    (csp_optimize emptyRequest (.ok (CpStatus.OPTIMAL, emptyCspAssignment))).optimization_score = 100 :=
  C10_empty_courses_success emptyRequest CpStatus.OPTIMAL emptyCspAssignment rfl (Or.inl rfl)

/-- Witness for C4 at the spec's scenario seed 6 medium case. -/
theorem C4_dispatcher_selection_witness :
    select_best_algorithm fixtureMediumRequest = selectSpec fixtureMediumRequest ∧
    select_best_algorithm fixtureMediumRequest = select_best_algorithm fixtureMediumRequest ∧
    select_best_algorithm fixtureMediumRequest = "ilp" :=
  ⟨(C4_dispatcher_selection fixtureMediumRequest).1,
   (C4_dispatcher_selection fixtureMediumRequest).2 fixtureMediumRequest fixtureMediumRequest rfl,
   by decide⟩

/-! ### ILP engine (`ilp_optimizer.py`) -/

/-- PuLP problem statuses (`pulp.LpStatus` names). -/
inductive LpStatus where
  | Optimal | Infeasible | Unbounded | NotSolved | Undefined
deriving DecidableEq, Repr

/-- The display name `pulp.LpStatus[status]`. -/
def lpStatusName : LpStatus → String
  | .Optimal => "Optimal"
  | .Infeasible => "Infeasible"
  | .Unbounded => "Unbounded"
  | .NotSolved => "Not Solved"
  | .Undefined => "Undefined"

/-- A total assignment to the ILP schedule variables
`x[course, day, slot, faculty, room]`; the CBC solver is an external
oracle.  `varValue > 0.5` on a solved binary variable is modelled as
the boolean being true. -/
structure IlpAssignment where
  schedule : String → String → ℕ → String → String → Bool

/-- `ILPOptimizer.validate_constraints` (lines 102-127). -/
def ilp_validate (request : OptimizationRequest) : List String :=
  (if request.courses.isEmpty then ["No courses provided"] else []) ++
  (if request.faculty.isEmpty then ["No faculty provided"] else []) ++
  (if request.rooms.isEmpty then ["No rooms provided"] else []) ++
  (if (request.courses.map (fun c => c.credits)).sum >
      (request.faculty.map (fun f => f.max_workload_hours)).sum
   then ["Insufficient faculty capacity: need " ++
           toString (request.courses.map (fun c => c.credits)).sum ++
           " hours, have " ++
           toString (request.faculty.map (fun f => f.max_workload_hours)).sum]
   else []) ++
  request.courses.filterMap (fun course =>
    if (request.rooms.filter (fun r => course.student_strength ≤ r.capacity)).isEmpty
    then some ("No room with sufficient capacity for course " ++ course.code ++
      " (needs (" ++ toString course.student_strength ++ ") seats)")
    else none)

/-- The per-course (day, slot, faculty, room) tuple enumeration of
the ILP schedule variables, in the source's nesting (and hence dict
insertion) order. -/
def ilpGrid (request : OptimizationRequest) : List (String × ℕ × String × String) :=
  days.flatMap (fun d =>
    (List.range request.config.slots_per_day).flatMap (fun s =>
      request.faculty.flatMap (fun f =>
        request.rooms.map (fun r => (d, s, f.id, r.id)))))

/-- Constraint 1 of `ILPOptimizer._add_constraints`: each course is
scheduled for exactly its credit hours (added only when the course
has schedule variables at all). The remaining hard and soft
constraints are not consulted by any claim and are not reproduced. -/
def ilp_credit_constraint (request : OptimizationRequest) (x : IlpAssignment) : Prop :=
  ∀ c ∈ request.courses,
    ilpGrid request = [] ∨
    (ilpGrid request).countP
      (fun t => x.schedule c.id t.1 t.2.1 t.2.2.1 t.2.2.2) = c.credits

/-- `ILPOptimizer._extract_solution`: one output slot per schedule
variable with value 1, iterating the variable dict in insertion
order (courses outer, then day, slot, faculty, room; this enumeration
equals the dict iteration whenever the request's id lists are
duplicate-free). -/
def ilp_extract_solution (request : OptimizationRequest) (x : IlpAssignment) :
    List TimetableSlot :=
  request.courses.flatMap (fun course =>
    (ilpGrid request).filterMap (fun t =>
      if x.schedule course.id t.1 t.2.1 t.2.2.1 t.2.2.2 then
        some { day := t.1
               time_start := (generate_time_mapping request.config t.2.1).1
               time_end := (generate_time_mapping request.config t.2.1).2
               course_id := course.id
               faculty_id := t.2.2.1
               room_id := t.2.2.2
               student_groups := [course.id] }
      else none))

/-- `ILPOptimizer.optimize` (lines 18-100), with the try-block
(problem building, CBC solve, extraction) as an oracle. -/
def ilp_optimize (request : OptimizationRequest)
    (solve : Except String (LpStatus × IlpAssignment)) : OptimizationResult :=
  let violations := ilp_validate request
  if violations ≠ [] then
    failureResult ("ILP-PuLP") ("Constraint violations: " ++ joinSemicolon violations)
  else
    match solve with
    | .error e => failureResult ("ILP-PuLP") ("Optimization failed: " ++ e)
    | .ok (status, x) =>
        if status = LpStatus.Optimal then
          let timetable_slots := ilp_extract_solution request x
          let conflicts := detect_conflicts timetable_slots
          let workload_dist := calculate_workload_distribution timetable_slots
          let base : OptimizationResult :=
            { success := true, message := "Optimal solution found",
              timetable_slots := timetable_slots, conflicts := conflicts,
              optimization_score := 0, algorithm_used := "ILP-PuLP",
              workload_distribution := workload_dist }
          { base with optimization_score := calculate_optimization_score base }
        else if status = LpStatus.Infeasible then
          failureResult ("ILP-PuLP")
            ("Problem is infeasible - no solution exists with given constraints")
        else
          failureResult ("ILP-PuLP")
            ("Optimization failed with status: " ++ lpStatusName status)

/-! ### Counting lemmas shared by the three C5 sub-proofs -/

lemma length_filterMap_ite {α β : Type} (l : List α) (p : α → Bool) (g : α → β) :
    (l.filterMap (fun x => if p x then some (g x) else none)).length = l.countP p := by
  induction l with
  | nil => rfl
  | cons a t ih =>
      by_cases h : p a <;>
        simp [List.filterMap_cons, h, ih, List.countP_cons]

lemma mem_filterMap_ite {α β : Type} (l : List α) (p : α → Bool) (g : α → β)
    (y : β) (hy : y ∈ l.filterMap (fun x => if p x then some (g x) else none)) :
    ∃ x ∈ l, y = g x := by
  rcases List.mem_filterMap.1 hy with ⟨x, hx, hgx⟩
  refine ⟨x, hx, ?_⟩
  by_cases h : p x
  · rw [if_pos h] at hgx
    exact (Option.some_injective _ hgx).symm
  · rw [if_neg h] at hgx
    cases hgx

lemma countP_flatMap_single (courses : List CourseData)
    (F : CourseData → List TimetableSlot)
    (hF : ∀ c, ∀ s ∈ F c, s.course_id = c.id)
    (hnodup : (courses.map (fun c => c.id)).Nodup) :
    ∀ c ∈ courses,
      (courses.flatMap F).countP (fun s => s.course_id == c.id) = (F c).length := by
  induction courses with
  | nil => intro c hc; cases hc
  | cons hd tl ih =>
      intro c hc
      rw [List.map_cons, List.nodup_cons] at hnodup
      rw [List.flatMap_cons, List.countP_append]
      rcases List.mem_cons.1 hc with hceq | hctl
      · subst hceq
        have h1 : (F c).countP (fun s => s.course_id == c.id) = (F c).length := by
          rw [List.countP_eq_length]
          intro s hs
          simp [hF c s hs]
        have h2 : (tl.flatMap F).countP (fun s => s.course_id == c.id) = 0 := by
          rw [List.countP_eq_zero]
          intro s hs
          rcases List.mem_flatMap.1 hs with ⟨c2, hc2, hsc2⟩
          have hid : s.course_id = c2.id := hF c2 s hsc2
          have : c2.id ∈ tl.map (fun c => c.id) := List.mem_map_of_mem _ hc2
          have hne : c2.id ≠ c.id := by
            intro h
            exact hnodup.1 (h ▸ this)
          simp [hid, hne]
        omega
      · have h1 : (F hd).countP (fun s => s.course_id == c.id) = 0 := by
          rw [List.countP_eq_zero]
          intro s hs
          have hid : s.course_id = hd.id := hF hd s hs
          have : c.id ∈ tl.map (fun c => c.id) := List.mem_map_of_mem _ hctl
          have hne : hd.id ≠ c.id := by
            intro h
            exact hnodup.1 (h ▸ this)
          simp [hid, hne]
        rw [h1, ih hnodup.2 c hctl]
        omega

/-! ### GA engine (`genetic_optimizer.py`)

The GA is randomized; every call of the `random` module is replaced
by an explicit oracle argument, indexed by the loop position of the
draw.  A realizable oracle is one whose draws lie in the ranges the
`random` calls produce (choices from the offered pool, sample indices
within the population, cut points within the `randint` range);
theorems quantified over all oracles in particular cover every
realizable run, and concrete refutation runs below use only
realizable draws. -/

/-- An individual of the GA population (`Individual.__init__` sets
`fitness = 0.0`; the cached `conflicts`, `workload_balance` and
`room_utilization` attributes are recomputed from the slots wherever
read, so only the slots and the fitness are carried). -/
structure Individual where
  timetable_slots : List TimetableSlot
  fitness : ℚ
deriving DecidableEq, Repr

/-- Constructor parameters of `GeneticOptimizer.__init__` (the two
rates only scale Bernoulli draws, which the oracle replaces). -/
structure GaParams where
  population_size : ℕ
  generations : ℕ
  mutation_rate : ℚ
  crossover_rate : ℚ
deriving Repr

/-- The random draws consumed while building one course's slots in
`_create_random_individual`. -/
structure CourseRand where
  pickFaculty : List FacultyData → FacultyData
  pickRoom : List RoomData → RoomData
  dayOrder : List String
  fill : ℕ → String × ℕ

/-- The random draws of `_mutate`: the slot index, the new day, and
the `random.choice` picks from `request.faculty` / `request.rooms`. -/
structure MutRand where
  slotIndex : ℕ
  day : String
  faculty : FacultyData
  room : RoomData

/-- All random draws of one `GeneticOptimizer.optimize` call. -/
structure GaRand where
  init : ℕ → ℕ → CourseRand
  tournament : ℕ → ℕ → List ℕ
  doCross : ℕ → ℕ → Bool
  cutChoice : ℕ → ℕ → ℕ
  doMut1 : ℕ → ℕ → Bool
  doMut2 : ℕ → ℕ → Bool
  mut1 : ℕ → ℕ → MutRand
  mut2 : ℕ → ℕ → MutRand

/-- `GeneticOptimizer.validate_constraints` (lines 110-128). -/
def ga_validate (request : OptimizationRequest) : List String :=
  (if request.courses.isEmpty then ["No courses provided"] else []) ++
  (if request.faculty.isEmpty then ["No faculty provided"] else []) ++
  (if request.rooms.isEmpty then ["No rooms provided"] else []) ++
  request.courses.filterMap (fun course =>
    if (request.faculty.filter (fun f => gaQualified f course)).isEmpty
    then some ("No qualified faculty for course " ++ course.code)
    else none)

/-- The lab phase of `_create_random_individual` (lines 171-190):
for each day of the shuffled day list, append one block of
`consecutive_slots_required` slots starting at index 0 when the block
fits in the day (`L ≤ slots_per_day`) and in the remaining credit
budget, stopping once the budget is reached.  (The source's inner
loop over `start_slot` can only ever fire at `start_slot = 0`,
because the budget test does not depend on `start_slot`.) -/
def labPhase (L spd needed : ℕ) : List String → List (String × ℕ) → List (String × ℕ)
  | [], acc => acc
  | d :: rest, acc =>
      let acc2 :=
        if L ≤ spd ∧ acc.length + L ≤ needed
        then acc ++ (List.range L).map (fun i => (d, i))
        else acc
      if needed ≤ acc2.length then acc2 else labPhase L spd needed rest acc2

/-- Build the output slot of a chosen (day, slot index) pair for a
course with its chosen faculty and room. -/
def gaSlot (config : TimetableConfig) (course : CourseData)
    (fac : FacultyData) (room : RoomData) (p : String × ℕ) : TimetableSlot :=
  { day := p.1
    time_start := (generate_time_mapping config p.2).1
    time_end := (generate_time_mapping config p.2).2
    course_id := course.id
    faculty_id := fac.id
    room_id := room.id
    student_groups := [course.id] }

/-- The per-course body of `_create_random_individual` (lines
151-208): choose a faculty from the qualified pool (all faculty when
the pool is empty), a room from the sufficient-capacity pool (all
rooms when empty), run the lab phase for lab courses needing more
than one consecutive slot, fill up with random (day, slot) draws to
exactly `credits` slots, and keep the first `credits` of them. -/
def courseSlots (request : OptimizationRequest) (r : CourseRand)
    (course : CourseData) : List TimetableSlot :=
  let qualified := request.faculty.filter (fun f => gaQualified f course)
  let fpool := if qualified.isEmpty then request.faculty else qualified
  let fac := r.pickFaculty fpool
  let suitable := request.rooms.filter (fun rm => course.student_strength ≤ rm.capacity)
  let rpool := if suitable.isEmpty then request.rooms else suitable
  let room := r.pickRoom rpool
  let labPairs :=
    if course.requires_lab ∧ 1 < course.consecutive_slots_required
    then labPhase course.consecutive_slots_required request.config.slots_per_day
      course.credits r.dayOrder []
    else []
  let pairs := labPairs ++ (List.range (course.credits - labPairs.length)).map r.fill
  (pairs.take course.credits).map (gaSlot request.config course fac room)

/-- The course loop of `_create_random_individual`, with the course
position indexing the oracle. -/
def createSlotsAux (request : OptimizationRequest) (cr : ℕ → CourseRand) :
    ℕ → List CourseData → List TimetableSlot
  | _, [] => []
  | i, course :: rest =>
      courseSlots request (cr i) course ++ createSlotsAux request cr (i + 1) rest

/-- `GeneticOptimizer._create_random_individual` (lines 140-210). -/
def create_random_individual (request : OptimizationRequest)
    (cr : ℕ → CourseRand) : Individual :=
  { timetable_slots := createSlotsAux request cr 0 request.courses, fitness := 0 }

/-- `GeneticOptimizer._initialize_population` (lines 130-138). -/
def initialize_population (P : GaParams) (request : OptimizationRequest)
    (rand : GaRand) : List Individual :=
  (List.range P.population_size).map
    (fun i => create_random_individual request (rand.init i))

/-- `GeneticOptimizer._calculate_workload_balance` (lines 240-258). -/
def calculate_workload_balance (timetable_slots : List TimetableSlot) : ℚ :=
  let workload_dist := calculate_workload_distribution timetable_slots
  if workload_dist.isEmpty then 0
  else
    let workloads : List ℚ := workload_dist.map (fun p => (p.2 : ℚ))
    if workloads.length ≤ 1 then 1
    else
      let mean := workloads.sum / (workloads.length : ℚ)
      let variance := (workloads.map (fun w => (w - mean) ^ 2)).sum / (workloads.length : ℚ)
      let max_variance := mean ^ 2
      let balance_score := if 0 < max_variance then 1 - variance / max_variance else 1
      max 0 (min 1 balance_score)

/-- `GeneticOptimizer._calculate_room_utilization` (lines 260-268).
When `slots_per_day = 0` the source raises `ZeroDivisionError`
(caught by the engine boundary); the total ℚ division returns 0
there, and no theorem relies on that case. -/
def calculate_room_utilization (request : OptimizationRequest)
    (timetable_slots : List TimetableSlot) : ℚ :=
  if request.rooms.isEmpty ∨ timetable_slots.isEmpty then 0
  else
    min 1 ((timetable_slots.length : ℚ) /
      ((request.rooms.length : ℚ) * (request.config.slots_per_day : ℚ) * 5))

/-- `GeneticOptimizer._calculate_fitness` (lines 220-238), with the
constant preference placeholder 0.5; only clamped below at 0. -/
def calculate_fitness (request : OptimizationRequest)
    (timetable_slots : List TimetableSlot) : ℚ :=
  let conflicts := detect_conflicts timetable_slots
  let fitness : ℚ := 100 - (conflicts.length : ℚ) * 10
    + calculate_workload_balance timetable_slots * 20
    + calculate_room_utilization request timetable_slots * 10
    + (1 / 2) * 5
  max 0 fitness

/-- `GeneticOptimizer._evaluate_population` (lines 212-218): set each
individual's fitness from its slots. -/
def evaluate_population (request : OptimizationRequest)
    (population : List Individual) : List Individual :=
  population.map (fun ind =>
    { ind with fitness := calculate_fitness request ind.timetable_slots })

/-- Python `max(iterable, key=fitness)`: the first element of
maximal fitness, `none` on the empty list (where Python raises). -/
def firstMax : List Individual → Option Individual
  | [] => none
  | x :: xs => some (xs.foldl (fun b y => if b.fitness < y.fitness then y else b) x)

/-- One tournament of `GeneticOptimizer._selection` (lines 276-286):
the oracle provides the sampled population indices; the winner is the
first individual of maximal fitness; an empty tournament reproduces
Python's `max() arg is an empty sequence` ValueError. -/
def selectOne (pop : List Individual) (idxs : List ℕ) : Except String Individual :=
  match firstMax (idxs.filterMap (fun j => pop.get? j)) with
  | some w => .ok w
  | none => .error ("max() arg is an empty sequence")

/-- `GeneticOptimizer._selection`: `population_size` tournaments. -/
def selection (P : GaParams) (rand : GaRand) (g : ℕ)
    (pop : List Individual) : Except String (List Individual) :=
  (List.range P.population_size).mapM (fun i => selectOne pop (rand.tournament g i))

/-- `GeneticOptimizer._crossover` (lines 310-318): single cut at
`randint(1, min(len, len) - 1)`; with a minimum length of at most 1
the `randint` range is empty and Python raises.  A realizable cut
draw satisfies `cutChoice < m - 1`, and `1 + cutChoice % (m - 1)`
ranges over exactly `[1, m-1]`. -/
def ga_crossover (cutC : ℕ) (p1 p2 : Individual) :
    Except String (Individual × Individual) :=
  let m := min p1.timetable_slots.length p2.timetable_slots.length
  if m ≤ 1 then .error ("empty range in randrange(1, " ++ toString m ++ ")")
  else
    let cut := 1 + cutC % (m - 1)
    .ok ({ timetable_slots := p1.timetable_slots.take cut ++ p2.timetable_slots.drop cut,
           fitness := 0 },
         { timetable_slots := p2.timetable_slots.take cut ++ p1.timetable_slots.drop cut,
           fitness := 0 })

/-- A placeholder slot for total indexing; unreachable on realizable
draws because Python's `randint(0, len-1)` index is always in
range. -/
def defaultSlot : TimetableSlot :=
  { day := "", time_start := "", time_end := "", course_id := "",
    faculty_id := "", room_id := "", student_groups := [] }

/-- `GeneticOptimizer._mutate` (lines 320-344): keep an empty
individual unchanged; otherwise rebuild one slot (chosen by the
oracle index, reduced modulo the length, which is the identity on
realizable draws) with a fresh random day, faculty and room, keeping
its times, course and groups, and return a new individual (whose
constructor resets fitness to 0). -/
def ga_mutate (mr : MutRand) (ind : Individual) : Individual :=
  if ind.timetable_slots.isEmpty then ind
  else
    let n := ind.timetable_slots.length
    let i := mr.slotIndex % n
    let slot := ind.timetable_slots.getD i defaultSlot
    let new_slot : TimetableSlot :=
      { day := mr.day
        time_start := slot.time_start
        time_end := slot.time_end
        course_id := slot.course_id
        faculty_id := mr.faculty.id
        room_id := mr.room.id
        student_groups := slot.student_groups }
    { timetable_slots := ind.timetable_slots.set i new_slot, fitness := 0 }

/-- One pair iteration of `_crossover_and_mutation` (lines 292-306):
optional crossover (parents pass through unchanged otherwise),
then an independent mutation draw per child. -/
def pairStep (rand : GaRand) (g k : ℕ) (p1 p2 : Individual) :
    Except String (List Individual) :=
  match (if rand.doCross g k then ga_crossover (rand.cutChoice g k) p1 p2
         else .ok (p1, p2)) with
  | .error e => .error e
  | .ok c =>
      let c1 := if rand.doMut1 g k then ga_mutate (rand.mut1 g k) c.1 else c.1
      let c2 := if rand.doMut2 g k then ga_mutate (rand.mut2 g k) c.2 else c.2
      .ok [c1, c2]

/-- The pair loop of `_crossover_and_mutation`: consecutive pairs,
with the head of the population standing in as the partner of a
trailing odd element. -/
def camAux (rand : GaRand) (g : ℕ) (pop0 : Individual) :
    ℕ → List Individual → Except String (List Individual)
  | _, [] => .ok []
  | k, [p1] => pairStep rand g k p1 pop0
  | k, p1 :: p2 :: rest =>
      match pairStep rand g k p1 p2 with
      | .error e => .error e
      | .ok cs =>
          match camAux rand g pop0 (k + 1) rest with
          | .error e => .error e
          | .ok more => .ok (cs ++ more)

/-- `GeneticOptimizer._crossover_and_mutation` (lines 288-308),
truncating the offspring to the population size. -/
def crossover_and_mutation (P : GaParams) (rand : GaRand) (g : ℕ)
    (pop : List Individual) : Except String (List Individual) :=
  match pop with
  | [] => .ok []
  | p0 :: _ =>
      match camAux rand g p0 0 pop with
      | .error e => .error e
      | .ok np => .ok (np.take P.population_size)

/-- The generation loop of `GeneticOptimizer.optimize` (lines
55-72): evaluate, select, recombine, track the best individual by
strict fitness improvement, and break once the generation's best
reaches fitness 100.  Returns the tracked best and the number of
executed generations (which the completion message reports). -/
def gaLoop (P : GaParams) (request : OptimizationRequest) (rand : GaRand) :
    ℕ → ℕ → List Individual → Option Individual →
    Except String (Option Individual × ℕ)
  | g, 0, _, best => .ok (best, g)
  | g, fuel + 1, pop, best =>
      let pop1 := evaluate_population request pop
      match selection P rand g pop1 with
      | .error e => .error e
      | .ok pop2 =>
          match crossover_and_mutation P rand g pop2 with
          | .error e => .error e
          | .ok pop3 =>
              match firstMax pop3 with
              | none => .error ("max() arg is an empty sequence")
              | some b =>
                  let best2 :=
                    match best with
                    | none => some b
                    | some ob => if ob.fitness < b.fitness then some b else some ob
                  if 100 ≤ b.fitness then .ok (best2, g + 1)
                  else gaLoop P request rand (g + 1) fuel pop3 best2

/-- `GeneticOptimizer.optimize` (lines 32-108).  Note line 86: the
success result's `optimization_score` is the best individual's
internal fitness, not the shared scorer's value. -/
def ga_optimize (P : GaParams) (request : OptimizationRequest)
    (rand : GaRand) : OptimizationResult :=
  let violations := ga_validate request
  if violations ≠ [] then
    failureResult ("Genetic-Algorithm")
      ("Constraint violations: " ++ joinSemicolon violations)
  else
    match gaLoop P request rand 0 P.generations
      (initialize_population P request rand) none with
    | .error e => failureResult ("Genetic-Algorithm") ("Optimization failed: " ++ e)
    | .ok (some best, gens) =>
        { success := true
          message := "Optimization completed after (" ++ toString gens ++ ") generations"
          timetable_slots := best.timetable_slots
          conflicts := detect_conflicts best.timetable_slots
          optimization_score := best.fitness
          algorithm_used := "Genetic-Algorithm"
          workload_distribution := calculate_workload_distribution best.timetable_slots }
    | .ok (none, _) =>
        failureResult ("Genetic-Algorithm") ("Failed to generate valid solution")

/-! ### A concrete, realizable GA run (used by C1 and C2)

One course ("math", 1 credit), one qualified faculty, one sufficient
room, 4 slots per day, population 2, a single generation.  Every
oracle draw below is realizable: tournaments sample both population
indices, the Bernoulli draws decline crossover and mutation (rates
0.8 and 0.1, so both outcomes have positive probability), and the
fill draw (Monday, slot 0) lies in the grid.  The single generation's
best individual has fitness
`100 - 0 + 20*1 + 10*(1/20) + 5*(1/2) = 123 ≥ 100`, so the loop
breaks and the engine reports success. -/

/-- Four-slot config fixture. -/
def fixtureConfig4 : TimetableConfig :=
  { slot_duration_minutes := 50, college_start_time := "08:30",
    college_end_time := "17:30", slots_per_day := 4,
    break_slots := [], lunch_duration_minutes := 60 }

/-- One-credit course named "math". -/
def gaCourse : CourseData :=
  { id := "c1", code := "M1", name := "math", credits := 1,
    course_type := CourseType.major, session_type := SessionType.theory,
    student_strength := 10, requires_lab := false,
    consecutive_slots_required := 1, preferred_time_slots := [] }

/-- A room with sufficient capacity. -/
def gaRoom : RoomData :=
  { id := "r1", name := "R1", capacity := 30, room_type := "classroom",
    location_block := "A", equipment := [], course_restrictions := [] }

/-- The request of the concrete GA run. -/
def gaRequest : OptimizationRequest :=
  { config := fixtureConfig4, courses := [gaCourse], faculty := [facultyLower],
    rooms := [gaRoom], students := [], objectives := [] }

/-- GA constructor parameters of the concrete run (population 2, one
generation, the default rates). -/
def gaParamsSmall : GaParams :=
  { population_size := 2, generations := 1,
    mutation_rate := 1 / 10, crossover_rate := 4 / 5 }

/-- The initialization draws of the concrete run: first of each pool,
days in order, always (Monday, slot 0). -/
def courseRand0 : CourseRand :=
  { pickFaculty := fun pool => pool.getD 0 facultyLower
    pickRoom := fun pool => pool.getD 0 gaRoom
    dayOrder := days
    fill := fun _ => ("Monday", 0) }

/-- Unused mutation draws of the concrete run. -/
def mutRand0 : MutRand :=
  { slotIndex := 0, day := "Monday", faculty := facultyLower, room := gaRoom }

/-- The full oracle of the concrete run. -/
def gaRand0 : GaRand :=
  { init := fun _ _ => courseRand0
    tournament := fun _ _ => [0, 1]
    doCross := fun _ _ => false
    cutChoice := fun _ _ => 0
    doMut1 := fun _ _ => false
    doMut2 := fun _ _ => false
    mut1 := fun _ _ => mutRand0
    mut2 := fun _ _ => mutRand0 }

unseal Rat.add Rat.sub Rat.mul Rat.inv in
/-- Claim C1 evaluated on the code: a successful GA run whose
returned `optimization_score` (the internal fitness 123) differs
from the shared §4.B scorer applied to the returned result (whose
conflicts are empty and whose workload distribution is the returned
one, giving 100).  So the GA reports the internal fitness, not the
common scorer. -/
theorem C1_ga_score_is_fitness_not_scorer :
    (ga_optimize gaParamsSmall gaRequest gaRand0).success = true ∧
    (ga_optimize gaParamsSmall gaRequest gaRand0).optimization_score = 123 ∧
    calculate_optimization_score (ga_optimize gaParamsSmall gaRequest gaRand0) = 100 ∧
    (ga_optimize gaParamsSmall gaRequest gaRand0).optimization_score ≠
      calculate_optimization_score (ga_optimize gaParamsSmall gaRequest gaRand0) := by
  decide

unseal Rat.add Rat.sub Rat.mul Rat.inv in
/-- Claim C2 evaluated on the code: the same successful GA run
returns an `optimization_score` strictly above 100, violating the
P7 bound `0 ≤ score ≤ 100` (the GA fitness is clamped only below). -/
theorem C2_ga_score_above_100 :
    (ga_optimize gaParamsSmall gaRequest gaRand0).success = true ∧
    ¬ ((ga_optimize gaParamsSmall gaRequest gaRand0).optimization_score ≤ 100) := by
  decide

lemma slotGrid_ne_nil (spd : ℕ) (h : 1 ≤ spd) : slotGrid spd ≠ [] := by
  have : ("Monday", 0) ∈ slotGrid spd := by
    unfold slotGrid days
    refine List.mem_flatMap.2 ⟨"Monday", by decide, ?_⟩
    exact List.mem_map.2 ⟨0, List.mem_range.2 h, rfl⟩
  exact List.ne_nil_of_mem this

lemma ilpGrid_ne_nil (request : OptimizationRequest)
    (hspd : 1 ≤ request.config.slots_per_day)
    (hf : request.faculty ≠ []) (hr : request.rooms ≠ []) :
    ilpGrid request ≠ [] := by
  rcases List.exists_mem_of_ne_nil _ hf with ⟨f, hfm⟩
  rcases List.exists_mem_of_ne_nil _ hr with ⟨r, hrm⟩
  have : ("Monday", 0, f.id, r.id) ∈ ilpGrid request := by
    unfold ilpGrid days
    refine List.mem_flatMap.2 ⟨"Monday", by decide, ?_⟩
    refine List.mem_flatMap.2 ⟨0, List.mem_range.2 hspd, ?_⟩
    refine List.mem_flatMap.2 ⟨f, hfm, ?_⟩
    exact List.mem_map.2 ⟨r, hrm, rfl⟩
  exact List.ne_nil_of_mem this

/-! ### Claim C5: credit counts in all three engines -/

/-- The per-course multiplicity profile of a request: for each course
in order, its id repeated `credits` times.  Every GA individual's
slot list projects to this profile on `course_id`. -/
def gaProfile (request : OptimizationRequest) : List String :=
  request.courses.flatMap (fun c => List.replicate c.credits c.id)

lemma labPhase_length_le (L spd needed : ℕ) (ds : List String)
    (acc : List (String × ℕ)) (h : acc.length ≤ needed) :
    (labPhase L spd needed ds acc).length ≤ needed := by
  induction ds generalizing acc with
  | nil => simpa [labPhase] using h
  | cons d rest ih =>
      unfold labPhase
      by_cases hc : L ≤ spd ∧ acc.length + L ≤ needed
      · simp only [if_pos hc]
        by_cases hstop : needed ≤ (acc ++ (List.range L).map (fun i => (d, i))).length
        · rw [if_pos hstop]
          simp only [List.length_append, List.length_map, List.length_range]
          exact hc.2
        · rw [if_neg hstop]
          exact ih _ (by simp only [List.length_append, List.length_map,
              List.length_range]; exact hc.2)
      · simp only [if_neg hc]
        by_cases hstop : needed ≤ acc.length
        · rw [if_pos hstop]; exact h
        · rw [if_neg hstop]; exact ih _ h

lemma map_of_forall_eq_replicate {α β : Type} (l : List α) (f : α → β) (b : β)
    (h : ∀ x ∈ l, f x = b) : l.map f = List.replicate l.length b := by
  rw [List.eq_replicate_iff]
  refine ⟨by simp, ?_⟩
  intro y hy
  rcases List.mem_map.1 hy with ⟨x, hx, hfx⟩
  rw [← hfx]
  exact h x hx

lemma courseSlots_map_course_id (request : OptimizationRequest)
    (r : CourseRand) (course : CourseData) :
    (courseSlots request r course).map (fun s => s.course_id) =
      List.replicate course.credits course.id := by
  simp only [courseSlots]
  have hlablen :
      (if course.requires_lab = true ∧ 1 < course.consecutive_slots_required
       then labPhase course.consecutive_slots_required request.config.slots_per_day
         course.credits r.dayOrder []
       else []).length ≤ course.credits := by
    split
    · exact labPhase_length_le _ _ _ _ [] (by simp)
    · simp
  rw [map_of_forall_eq_replicate _ _ course.id ?memh]
  case memh =>
    intro x hx
    rcases List.mem_map.1 hx with ⟨p, _, hp⟩
    rw [← hp]
    rfl
  rw [List.length_map, List.length_take, List.length_append, List.length_map,
    List.length_range]
  congr 1
  omega

lemma createSlotsAux_map_course_id (request : OptimizationRequest)
    (cr : ℕ → CourseRand) (i : ℕ) (courses : List CourseData) :
    (createSlotsAux request cr i courses).map (fun s => s.course_id) =
      courses.flatMap (fun c => List.replicate c.credits c.id) := by
  induction courses generalizing i with
  | nil => rfl
  | cons hd tl ih =>
      rw [createSlotsAux, List.flatMap_cons, List.map_append,
        courseSlots_map_course_id, ih]

lemma map_set_self {α β : Type} (l : List α) (f : α → β) (i : ℕ) (d : α) (v : α)
    (hi : i < l.length) (hv : f v = f (l.getD i d)) :
    (l.set i v).map f = l.map f := by
  induction l generalizing i with
  | nil => cases hi
  | cons a t ih =>
      cases i with
      | zero =>
          simp only [List.set_cons_zero, List.map_cons]
          simp only [List.getD_cons_zero] at hv
          rw [hv]
      | succ j =>
          simp only [List.set_cons_succ, List.map_cons]
          rw [ih j (by simpa using hi) (by simpa using hv)]

lemma count_gaProfile (courses : List CourseData)
    (hnodup : (courses.map (fun c => c.id)).Nodup) :
    ∀ c ∈ courses,
      (courses.flatMap (fun c2 => List.replicate c2.credits c2.id)).countP
        (fun x => x == c.id) = c.credits := by
  induction courses with
  | nil => intro c hc; cases hc
  | cons hd tl ih =>
      intro c hc
      rw [List.map_cons, List.nodup_cons] at hnodup
      rw [List.flatMap_cons, List.countP_append]
      rcases List.mem_cons.1 hc with hceq | hctl
      · subst hceq
        have h1 : (List.replicate c.credits c.id).countP (fun x => x == c.id) =
            c.credits := by
          have hall : ∀ a ∈ List.replicate c.credits c.id,
              ((fun x => x == c.id) a = true) := by
            intro a ha
            rw [List.eq_of_mem_replicate ha]
            simp
          calc (List.replicate c.credits c.id).countP (fun x => x == c.id)
              = (List.replicate c.credits c.id).length := List.countP_eq_length.2 hall
            _ = c.credits := List.length_replicate _ _
        have h2 : (tl.flatMap (fun c2 => List.replicate c2.credits c2.id)).countP
            (fun x => x == c.id) = 0 := by
          rw [List.countP_eq_zero]
          intro a ha
          rcases List.mem_flatMap.1 ha with ⟨c2, hc2, hac2⟩
          rw [List.eq_of_mem_replicate hac2]
          have : c2.id ∈ tl.map (fun c => c.id) := List.mem_map_of_mem _ hc2
          have hne : c2.id ≠ c.id := fun h => hnodup.1 (h ▸ this)
          simp [hne]
        omega
      · have h1 : (List.replicate hd.credits hd.id).countP (fun x => x == c.id) = 0 := by
          rw [List.countP_eq_zero]
          intro a ha
          rw [List.eq_of_mem_replicate ha]
          have : c.id ∈ tl.map (fun c => c.id) := List.mem_map_of_mem _ hctl
          have hne : hd.id ≠ c.id := fun h => hnodup.1 (h ▸ this)
          simp [hne]
        rw [h1, ih hnodup.2 c hctl]
        omega

/-- Claim C5: credit-count conservation in all three engines.
CSP: any solver assignment meeting the model's credit constraints
(with duplicate-free course ids and a non-empty slot grid, both
guaranteed for well-formed requests) extracts exactly `credits` slots
per course.  ILP: likewise over the 5-index variables (the grid is
non-empty because validation rejects empty faculty or room lists).
GA: chromosome initialization produces exactly the per-course
multiplicity profile, single-point crossover and point mutation
preserve it, and any slot list carrying the profile has exactly
`credits` slots per course. -/
theorem C5_credit_counts :
    (∀ (request : OptimizationRequest) (a : CspAssignment),
        (request.courses.map (fun c => c.id)).Nodup →
        1 ≤ request.config.slots_per_day →
        csp_credit_constraint request a →
        ∀ c ∈ request.courses,
          (csp_extract_solution request a).countP
            (fun s => s.course_id == c.id) = c.credits) ∧
    (∀ (request : OptimizationRequest) (x : IlpAssignment),
        (request.courses.map (fun c => c.id)).Nodup →
        1 ≤ request.config.slots_per_day →
        request.faculty ≠ [] → request.rooms ≠ [] →
        ilp_credit_constraint request x →
        ∀ c ∈ request.courses,
          (ilp_extract_solution request x).countP
            (fun s => s.course_id == c.id) = c.credits) ∧
    (∀ (request : OptimizationRequest) (cr : ℕ → CourseRand),
        ((create_random_individual request cr).timetable_slots).map
          (fun s => s.course_id) = gaProfile request) ∧
    (∀ (cutC : ℕ) (p1 p2 c1 c2 : Individual) (P : List String),
        p1.timetable_slots.map (fun s => s.course_id) = P →
        p2.timetable_slots.map (fun s => s.course_id) = P →
        ga_crossover cutC p1 p2 = .ok (c1, c2) →
        c1.timetable_slots.map (fun s => s.course_id) = P ∧
        c2.timetable_slots.map (fun s => s.course_id) = P) ∧
    (∀ (mr : MutRand) (ind : Individual),
        (ga_mutate mr ind).timetable_slots.map (fun s => s.course_id) =
          ind.timetable_slots.map (fun s => s.course_id)) ∧
    (∀ (request : OptimizationRequest) (slots : List TimetableSlot),
        slots.map (fun s => s.course_id) = gaProfile request →
        (request.courses.map (fun c => c.id)).Nodup →
        ∀ c ∈ request.courses,
          slots.countP (fun s => s.course_id == c.id) = c.credits) := by
  refine ⟨?_, ?_, ?_, ?_, ?_, ?_⟩
  · -- CSP extraction
    intro request a hnodup hspd hcc c hc
    unfold csp_extract_solution
    rw [countP_flatMap_single _ _ ?_ hnodup c hc]
    · rw [length_filterMap_ite]
      rcases hcc c hc with hnil | hcount
      · exact absurd hnil (slotGrid_ne_nil _ hspd)
      · exact hcount
    · intro c2 s hs
      rcases mem_filterMap_ite _ _ _ _ hs with ⟨ds, _, hds⟩
      rw [hds]
  · -- ILP extraction
    intro request x hnodup hspd hf hr hcc c hc
    unfold ilp_extract_solution
    rw [countP_flatMap_single _ _ ?_ hnodup c hc]
    · rw [length_filterMap_ite]
      rcases hcc c hc with hnil | hcount
      · exact absurd hnil (ilpGrid_ne_nil _ hspd hf hr)
      · exact hcount
    · intro c2 s hs
      rcases mem_filterMap_ite _ _ _ _ hs with ⟨t, _, ht⟩
      rw [ht]
  · -- GA initialization
    intro request cr
    unfold create_random_individual gaProfile
    exact createSlotsAux_map_course_id request cr 0 request.courses
  · -- GA crossover
    intro cutC p1 p2 c1 c2 P h1 h2 hok
    unfold ga_crossover at hok
    by_cases hm : min p1.timetable_slots.length p2.timetable_slots.length ≤ 1
    · rw [if_pos hm] at hok; cases hok
    · rw [if_neg hm] at hok
      injection hok with hpair
      injection hpair with hc1 hc2
      subst hc1; subst hc2
      constructor
      · simp only [List.map_append, List.map_take, List.map_drop, h1, h2]
        exact List.take_append_drop _ P
      · simp only [List.map_append, List.map_take, List.map_drop, h1, h2]
        exact List.take_append_drop _ P
  · -- GA mutation
    intro mr ind
    unfold ga_mutate
    by_cases hemp : ind.timetable_slots.isEmpty
    · rw [if_pos hemp]
    · rw [if_neg hemp]
      have hne : ind.timetable_slots ≠ [] := fun h => hemp (by simp [h])
      have hlen : 0 < ind.timetable_slots.length := List.length_pos.2 hne
      exact map_set_self _ _ _ defaultSlot _ (Nat.mod_lt _ hlen) rfl
  · -- profile determines the counts
    intro request slots hprof hnodup c hc
    have : slots.countP (fun s => s.course_id == c.id) =
        (slots.map (fun s => s.course_id)).countP (fun x => x == c.id) := by
      rw [List.countP_map]
      rfl
    rw [this, hprof]
    exact count_gaProfile request.courses hnodup c hc

/-- A CSP assignment scheduling the one course of `gaRequest` on
Monday slot 0 with its faculty and room. -/
def cspAssign1 : CspAssignment :=
  { course_slot := fun _ d s => d == "Monday" && s == 0
    faculty_assignment := fun _ f => f == "f1"
    room_assignment := fun _ r => r == "r1" }

/-- An ILP assignment scheduling the one course of `gaRequest` on
Monday slot 0 with its faculty and room. -/
def ilpAssign1 : IlpAssignment :=
  { schedule := fun _ d s f r => d == "Monday" && s == 0 && f == "f1" && r == "r1" }

/-- A two-slot fixture slot (course "c2", Monday). -/
def slotA : TimetableSlot :=
  { day := "Monday", time_start := "08:30", time_end := "09:20",
    course_id := "c2", faculty_id := "f1", room_id := "r1",
    student_groups := ["c2"] }

/-- A two-slot fixture slot (course "c2", Tuesday). -/
def slotB : TimetableSlot :=
  { day := "Tuesday", time_start := "08:30", time_end := "09:20",
    course_id := "c2", faculty_id := "f1", room_id := "r1",
    student_groups := ["c2"] }

/-- Crossover parent fixture. -/
def crossParent1 : Individual := { timetable_slots := [slotA, slotB], fitness := 0 }

/-- Crossover parent fixture with the same course profile. -/
def crossParent2 : Individual := { timetable_slots := [slotB, slotA], fitness := 0 }

/-- Expected first child of `ga_crossover 0 crossParent1 crossParent2`. -/
def crossChild1 : Individual := { timetable_slots := [slotA, slotA], fitness := 0 }

/-- Expected second child of `ga_crossover 0 crossParent1 crossParent2`. -/
def crossChild2 : Individual := { timetable_slots := [slotB, slotB], fitness := 0 }

/-- Witness for C5: all six conjuncts at concrete inputs — the CSP
and ILP extractions of a concrete solver assignment for `gaRequest`
count 1 slot for its 1-credit course, initialization reproduces the
profile, a concrete crossover at cut 1 and a concrete mutation keep
the profile, and the profile forces the counts. -/
theorem C5_credit_counts_witness :
    (csp_extract_solution gaRequest cspAssign1).countP
      (fun s => s.course_id == gaCourse.id) = gaCourse.credits ∧
    (ilp_extract_solution gaRequest ilpAssign1).countP
      (fun s => s.course_id == gaCourse.id) = gaCourse.credits ∧
    ((create_random_individual gaRequest (fun _ => courseRand0)).timetable_slots).map
      (fun s => s.course_id) = gaProfile gaRequest ∧
    (crossChild1.timetable_slots.map (fun s => s.course_id) = ["c2", "c2"] ∧
     crossChild2.timetable_slots.map (fun s => s.course_id) = ["c2", "c2"]) ∧
    (ga_mutate mutRand0 crossParent1).timetable_slots.map (fun s => s.course_id) =
      crossParent1.timetable_slots.map (fun s => s.course_id) ∧
    ((create_random_individual gaRequest (fun _ => courseRand0)).timetable_slots).countP
      (fun s => s.course_id == gaCourse.id) = gaCourse.credits := by
  refine ⟨?_, ?_, ?_, ?_, ?_, ?_⟩
  · exact C5_credit_counts.1 gaRequest cspAssign1 (by decide) (by decide)
      (by unfold csp_credit_constraint; decide) gaCourse (by decide)
  · exact C5_credit_counts.2.1 gaRequest ilpAssign1 (by decide) (by decide)
      (by decide) (by decide) (by unfold ilp_credit_constraint; decide)
      gaCourse (by decide)
  · exact C5_credit_counts.2.2.1 gaRequest (fun _ => courseRand0)
  · exact C5_credit_counts.2.2.2.1 0 crossParent1 crossParent2 crossChild1 crossChild2
      ["c2", "c2"] (by decide) (by decide) rfl
  · exact C5_credit_counts.2.2.2.2.1 mutRand0 crossParent1
  · exact C5_credit_counts.2.2.2.2.2 gaRequest
      ((create_random_individual gaRequest (fun _ => courseRand0)).timetable_slots)
      (C5_credit_counts.2.2.1 gaRequest (fun _ => courseRand0)) (by decide)
      gaCourse (by decide)

/-! ### Dispatcher run-all (`OptimizationEngine.optimize_with_multiple_algorithms`) -/

/-- The per-engine exception trap of
`optimize_with_multiple_algorithms` (lines 65-77): a returned result
passes through, a raised exception becomes a failure record keyed by
the engine. -/
def trapEngine (name : String) : Except String OptimizationResult → OptimizationResult
  | .ok r => r
  | .error e =>
      { success := false, message := "Algorithm " ++ name ++ " failed: " ++ e,
        timetable_slots := [], conflicts := [], optimization_score := 0,
        algorithm_used := name, workload_distribution := [] }

/-- `optimize_with_multiple_algorithms` (lines 53-79): run the fixed
engine roster csp, genetic, ilp — each run is an oracle that either
returns a result or raises — and collect the trapped results keyed by
engine name (the result dict as an insertion-ordered list). -/
def optimize_with_multiple_algorithms
    (runCsp runGenetic runIlp : Except String OptimizationResult) :
    List (String × OptimizationResult) :=
  [("csp", trapEngine ("csp") runCsp),
   ("genetic", trapEngine ("genetic") runGenetic),
   ("ilp", trapEngine ("ilp") runIlp)]

/-- Claim C8: every engine converts a raised exception from its
model/solve/extract phase into a returned failure with message
`Optimization failed: <detail>` and empty slots (for the GA the
raise surfaces from the evolution pipeline), and the dispatcher's
run-all traps a raising engine into a failure record under that
engine's key while always producing exactly the keys csp, genetic,
ilp. -/
theorem C8_exception_containment :
    (∀ (request : OptimizationRequest) (e : String),
        csp_validate request = [] →
        csp_optimize request (.error e) =
          failureResult ("CSP-OR-Tools") ("Optimization failed: " ++ e)) ∧
    (∀ (P : GaParams) (request : OptimizationRequest) (rand : GaRand) (e : String),
        ga_validate request = [] →
        gaLoop P request rand 0 P.generations
          (initialize_population P request rand) none = .error e →
        ga_optimize P request rand =
          failureResult ("Genetic-Algorithm") ("Optimization failed: " ++ e)) ∧
    (∀ (request : OptimizationRequest) (e : String),
        ilp_validate request = [] →
        ilp_optimize request (.error e) =
          failureResult ("ILP-PuLP") ("Optimization failed: " ++ e)) ∧
    (∀ runCsp runGenetic runIlp : Except String OptimizationResult,
        (optimize_with_multiple_algorithms runCsp runGenetic runIlp).map Prod.fst =
          ["csp", "genetic", "ilp"]) ∧
    (∀ (name e : String),
        trapEngine name (.error e) =
          { success := false, message := "Algorithm " ++ name ++ " failed: " ++ e,
            timetable_slots := [], conflicts := [], optimization_score := 0,
            algorithm_used := name, workload_distribution := [] }) := by
  refine ⟨?_, ?_, ?_, ?_, ?_⟩
  · intro request e hval
    unfold csp_optimize
    rw [hval]
    rfl
  · intro P request rand e hval hloop
    unfold ga_optimize
    rw [hval, hloop]
    rfl
  · intro request e hval
    unfold ilp_optimize
    rw [hval]
    rfl
  · intro r1 r2 r3
    rfl
  · intro name e
    rfl

/-- GA parameters with an empty population: realizable as
`GeneticOptimizer(population_size=0)`, whose first generation raises
`max() arg is an empty sequence`. -/
def gaParamsZero : GaParams :=
  { population_size := 0, generations := 1,
    mutation_rate := 1 / 10, crossover_rate := 4 / 5 }

/-- Witness for C8: a concrete raising run of each engine and the
concrete key list of a run-all where one engine raises. -/
theorem C8_exception_containment_witness :
    csp_optimize emptyRequest (.error ("boom")) =
      failureResult ("CSP-OR-Tools") ("Optimization failed: " ++ "boom") ∧
    ga_optimize gaParamsZero gaRequest gaRand0 =
      failureResult ("Genetic-Algorithm")
        ("Optimization failed: " ++ "max() arg is an empty sequence") ∧
    ilp_optimize gaRequest (.error ("boom")) =
      failureResult ("ILP-PuLP") ("Optimization failed: " ++ "boom") ∧
    (optimize_with_multiple_algorithms (.error ("boom"))
      (.ok (failureResult ("Genetic-Algorithm") ("x"))) (.ok (failureResult ("ILP-PuLP") ("y")))).map
      Prod.fst = ["csp", "genetic", "ilp"] ∧
    trapEngine ("csp") (.error ("boom")) =
      { success := false, message := "Algorithm " ++ "csp" ++ " failed: " ++ "boom",
        timetable_slots := [], conflicts := [], optimization_score := 0,
        algorithm_used := "csp", workload_distribution := [] } :=
  ⟨C8_exception_containment.1 emptyRequest ("boom") (by decide),
   C8_exception_containment.2.1 gaParamsZero gaRequest gaRand0
     "max() arg is an empty sequence" (by decide) (by rfl),
   C8_exception_containment.2.2.1 gaRequest ("boom") (by decide),
   C8_exception_containment.2.2.2.1 _ _ _,
   C8_exception_containment.2.2.2.2 ("csp") "boom"⟩

/-! ### Claim C9: order-independence of the conflict count and score

The proof normalizes `detect_conflicts` to a per-key sum: for each
distinct `(day, time_start)` key the detector emits `group size minus
number of distinct faculty ids` faculty conflicts and the analogous
number of room conflicts, and both the key set and each key's group
are permutation-invariant. -/

/-- Number of conflicts the detector emits for one group. -/
def groupConflictCount (g : List TimetableSlot) : ℕ :=
  (g.length - ((g.map (fun s => s.faculty_id)).toFinset.card)) +
    (g.length - ((g.map (fun s => s.room_id)).toFinset.card))

/-- Order-independent normal form of the total conflict count. -/
def conflictTotal (l : List TimetableSlot) : ℕ :=
  Finset.sum ((l.map slotKey).toFinset)
    (fun k => groupConflictCount (l.filter (fun s => slotKey s == k)))

/-- Number of fresh keys met while scanning a list left to right,
starting from the known keys `ks`. -/
def freshCount (ks : List String) : List String → ℕ
  | [] => 0
  | x :: xs => if x ∈ ks then freshCount ks xs else freshCount (x :: ks) xs + 1

lemma freshCount_congr (xs : List String) : ∀ ks1 ks2 : List String,
    (∀ y, y ∈ ks1 ↔ y ∈ ks2) → freshCount ks1 xs = freshCount ks2 xs := by
  induction xs with
  | nil => intro ks1 ks2 _; rfl
  | cons x t ih =>
      intro ks1 ks2 h
      unfold freshCount
      by_cases hx : x ∈ ks1
      · rw [if_pos hx, if_pos ((h x).1 hx)]
        exact ih ks1 ks2 h
      · rw [if_neg hx, if_neg (fun hc => hx ((h x).2 hc))]
        rw [ih (x :: ks1) (x :: ks2) ?_]
        intro y
        simp only [List.mem_cons, h y]

lemma freshCount_eq_card (xs : List String) : ∀ ks : List String,
    freshCount ks xs = (xs.toFinset \ ks.toFinset).card := by
  induction xs with
  | nil => intro ks; simp [freshCount]
  | cons x t ih =>
      intro ks
      unfold freshCount
      by_cases hx : x ∈ ks
      · rw [if_pos hx, ih ks, List.toFinset_cons,
          Finset.insert_sdiff_of_mem _ (List.mem_toFinset.2 hx)]
      · rw [if_neg hx, ih (x :: ks), List.toFinset_cons, List.toFinset_cons,
          Finset.insert_sdiff_of_not_mem _ (fun hc => hx (List.mem_toFinset.1 hc)),
          Finset.sdiff_insert]
        have hxe : x ∉ (t.toFinset \ ks.toFinset).erase x := Finset.not_mem_erase _ _
        rw [← Finset.card_insert_of_not_mem hxe]
        congr 1
        by_cases hmem : x ∈ t.toFinset \ ks.toFinset
        · rw [Finset.insert_erase hmem, Finset.insert_eq_self.2 hmem]
        · rw [Finset.erase_eq_of_not_mem hmem]

lemma assocFind_isSome_iff (k : String) : ∀ m : List (String × TimetableSlot),
    (assocFind m k).isSome = true ↔ k ∈ m.map Prod.fst := by
  intro m
  induction m with
  | nil => simp [assocFind]
  | cons p rest ih =>
      obtain ⟨k0, v0⟩ := p
      unfold assocFind
      by_cases hk : k = k0
      · simp [hk]
      · rw [if_neg hk]
        simp only [List.map_cons, List.mem_cons]
        rw [ih]
        constructor
        · exact fun h => Or.inr h
        · rintro (h | h)
          · exact absurd h hk
          · exact h

lemma mem_keys_assocSet (k : String) (v : TimetableSlot) (y : String) :
    ∀ m : List (String × TimetableSlot),
    (y ∈ (assocSet m k v).map Prod.fst ↔ y = k ∨ y ∈ m.map Prod.fst) := by
  intro m
  induction m with
  | nil => simp [assocSet]
  | cons p rest ih =>
      obtain ⟨k0, v0⟩ := p
      unfold assocSet
      by_cases hk : k = k0
      · rw [if_pos hk]
        subst hk
        simp only [List.map_cons, List.mem_cons]
        tauto
      · rw [if_neg hk]
        simp only [List.map_cons, List.mem_cons]
        rw [ih]
        tauto

lemma facultyPass_length (tk : String) (g : List TimetableSlot) :
    ∀ seen : List (String × TimetableSlot),
    (facultyPass tk g seen).length
      + freshCount (seen.map Prod.fst) (g.map (fun s => s.faculty_id)) = g.length := by
  induction g with
  | nil => intro seen; rfl
  | cons s rest ih =>
      intro seen
      simp only [List.map_cons, List.length_cons]
      unfold facultyPass
      cases hfind : assocFind seen s.faculty_id with
      | some prev =>
          have hmem : s.faculty_id ∈ seen.map Prod.fst := by
            rw [← assocFind_isSome_iff]
            rw [hfind]
            rfl
          unfold freshCount
          rw [if_pos hmem, List.length_cons]
          have hcongr : freshCount ((assocSet seen s.faculty_id s).map Prod.fst)
              (rest.map (fun s => s.faculty_id)) =
              freshCount (seen.map Prod.fst) (rest.map (fun s => s.faculty_id)) := by
            apply freshCount_congr
            intro y
            rw [mem_keys_assocSet]
            constructor
            · rintro (h | h)
              · exact h ▸ hmem
              · exact h
            · exact fun h => Or.inr h
          have hih := ih (assocSet seen s.faculty_id s)
          rw [hcongr] at hih
          omega
      | none =>
          have hmem : s.faculty_id ∉ seen.map Prod.fst := by
            rw [← assocFind_isSome_iff, hfind]
            simp
          unfold freshCount
          rw [if_neg hmem]
          have hcongr : freshCount ((assocSet seen s.faculty_id s).map Prod.fst)
              (rest.map (fun s => s.faculty_id)) =
              freshCount (s.faculty_id :: seen.map Prod.fst)
                (rest.map (fun s => s.faculty_id)) := by
            apply freshCount_congr
            intro y
            rw [mem_keys_assocSet]
            simp [List.mem_cons]
          have hih := ih (assocSet seen s.faculty_id s)
          rw [hcongr] at hih
          have hfin : (facultyPass tk rest (assocSet seen s.faculty_id s)).length +
              (freshCount (s.faculty_id :: seen.map Prod.fst)
                (rest.map (fun s => s.faculty_id)) + 1) = rest.length + 1 := by omega
          exact hfin

lemma roomPass_length (tk : String) (g : List TimetableSlot) :
    ∀ seen : List (String × TimetableSlot),
    (roomPass tk g seen).length
      + freshCount (seen.map Prod.fst) (g.map (fun s => s.room_id)) = g.length := by
  induction g with
  | nil => intro seen; rfl
  | cons s rest ih =>
      intro seen
      simp only [List.map_cons, List.length_cons]
      unfold roomPass
      cases hfind : assocFind seen s.room_id with
      | some prev =>
          have hmem : s.room_id ∈ seen.map Prod.fst := by
            rw [← assocFind_isSome_iff]
            rw [hfind]
            rfl
          unfold freshCount
          rw [if_pos hmem, List.length_cons]
          have hcongr : freshCount ((assocSet seen s.room_id s).map Prod.fst)
              (rest.map (fun s => s.room_id)) =
              freshCount (seen.map Prod.fst) (rest.map (fun s => s.room_id)) := by
            apply freshCount_congr
            intro y
            rw [mem_keys_assocSet]
            constructor
            · rintro (h | h)
              · exact h ▸ hmem
              · exact h
            · exact fun h => Or.inr h
          have hih := ih (assocSet seen s.room_id s)
          rw [hcongr] at hih
          omega
      | none =>
          have hmem : s.room_id ∉ seen.map Prod.fst := by
            rw [← assocFind_isSome_iff, hfind]
            simp
          unfold freshCount
          rw [if_neg hmem]
          have hcongr : freshCount ((assocSet seen s.room_id s).map Prod.fst)
              (rest.map (fun s => s.room_id)) =
              freshCount (s.room_id :: seen.map Prod.fst)
                (rest.map (fun s => s.room_id)) := by
            apply freshCount_congr
            intro y
            rw [mem_keys_assocSet]
            simp [List.mem_cons]
          have hih := ih (assocSet seen s.room_id s)
          rw [hcongr] at hih
          have hfin : (roomPass tk rest (assocSet seen s.room_id s)).length +
              (freshCount (s.room_id :: seen.map Prod.fst)
                (rest.map (fun s => s.room_id)) + 1) = rest.length + 1 := by omega
          exact hfin

lemma toFinset_card_le_length (xs : List String) : xs.toFinset.card ≤ xs.length := by
  induction xs with
  | nil => simp
  | cons x t ih =>
      rw [List.toFinset_cons, List.length_cons]
      calc (insert x t.toFinset).card ≤ t.toFinset.card + 1 := Finset.card_insert_le _ _
        _ ≤ t.length + 1 := by omega

lemma facultyPass_length_closed (tk : String) (g : List TimetableSlot) :
    (facultyPass tk g []).length =
      g.length - (g.map (fun s => s.faculty_id)).toFinset.card := by
  have h := facultyPass_length tk g []
  rw [freshCount_eq_card] at h
  simp only [List.map_nil, List.toFinset_nil, Finset.sdiff_empty] at h
  have hle := toFinset_card_le_length (g.map (fun s => s.faculty_id))
  rw [List.length_map] at hle
  omega

lemma roomPass_length_closed (tk : String) (g : List TimetableSlot) :
    (roomPass tk g []).length =
      g.length - (g.map (fun s => s.room_id)).toFinset.card := by
  have h := roomPass_length tk g []
  rw [freshCount_eq_card] at h
  simp only [List.map_nil, List.toFinset_nil, Finset.sdiff_empty] at h
  have hle := toFinset_card_le_length (g.map (fun s => s.room_id))
  rw [List.length_map] at hle
  omega

lemma filter_eq_nil_of_not_mem_map (l : List TimetableSlot) (k : String)
    (h : k ∉ l.map slotKey) : l.filter (fun s => slotKey s == k) = [] := by
  rw [List.filter_eq_nil_iff]
  intro s hs
  simp only [beq_iff_eq]
  intro heq
  exact h (heq ▸ List.mem_map_of_mem slotKey hs)

lemma keys_addToGroups (s : TimetableSlot) :
    ∀ acc : List (String × List TimetableSlot),
    (addToGroups acc s).map Prod.fst =
      if slotKey s ∈ acc.map Prod.fst then acc.map Prod.fst
      else acc.map Prod.fst ++ [slotKey s] := by
  intro acc
  induction acc with
  | nil => simp [addToGroups]
  | cons p rest ih =>
      obtain ⟨k0, g0⟩ := p
      unfold addToGroups
      by_cases hk : slotKey s = k0
      · rw [if_pos hk]
        simp [hk]
      · rw [if_neg hk]
        simp only [List.map_cons, List.mem_cons]
        rw [ih]
        by_cases hmem : slotKey s ∈ rest.map Prod.fst
        · rw [if_pos hmem, if_pos (Or.inr hmem)]
        · rw [if_neg hmem, if_neg (by tauto)]
          rfl

lemma snd_addToGroups (s : TimetableSlot) (done : List TimetableSlot) :
    ∀ acc : List (String × List TimetableSlot),
    ((acc.map Prod.fst).Nodup) →
    (∀ kg ∈ acc, kg.2 = done.filter (fun t => slotKey t == kg.1)) →
    (slotKey s ∉ acc.map Prod.fst → done.filter (fun t => slotKey t == slotKey s) = []) →
    ∀ kg ∈ addToGroups acc s,
      kg.2 = (done ++ [s]).filter (fun t => slotKey t == kg.1) := by
  intro acc
  induction acc with
  | nil =>
      intro _ _ hfresh kg hkg
      simp only [addToGroups, List.mem_singleton] at hkg
      subst hkg
      rw [List.filter_append, hfresh (by simp)]
      simp
  | cons p rest ih =>
      intro hnodup h2 hfresh kg hkg
      obtain ⟨k0, g0⟩ := p
      rw [List.map_cons, List.nodup_cons] at hnodup
      unfold addToGroups at hkg
      by_cases hk : slotKey s = k0
      · rw [if_pos hk] at hkg
        rcases List.mem_cons.1 hkg with hhd | htl
        · subst hhd
          simp only
          rw [List.filter_append, ← h2 (k0, g0) (List.mem_cons_self _ _)]
          simp [hk]
        · have hkg2 := h2 kg (List.mem_cons_of_mem _ htl)
          rw [hkg2, List.filter_append]
          have hne : slotKey s ≠ kg.1 := by
            rw [hk]
            intro hc
            apply hnodup.1
            have hm : kg.1 ∈ rest.map Prod.fst := List.mem_map_of_mem Prod.fst htl
            rwa [← hc] at hm
          simp [hne]
      · rw [if_neg hk] at hkg
        rcases List.mem_cons.1 hkg with hhd | htl
        · subst hhd
          simp only
          rw [List.filter_append, ← h2 (k0, g0) (List.mem_cons_self _ _)]
          simp [hk]
        · refine ih hnodup.2 (fun q hq => h2 q (List.mem_cons_of_mem _ hq)) ?_ kg htl
          intro hnotin
          refine hfresh ?_
          simp only [List.map_cons, List.mem_cons]
          rintro (hc | hc)
          · exact hk hc
          · exact hnotin hc

lemma groupSlots_invariant :
    ∀ (l : List TimetableSlot) (done : List TimetableSlot)
      (acc : List (String × List TimetableSlot)),
    (acc.map Prod.fst).Nodup →
    (∀ kg ∈ acc, kg.2 = done.filter (fun t => slotKey t == kg.1)) →
    (∀ k, k ∈ acc.map Prod.fst ↔ k ∈ done.map slotKey) →
    ((l.foldl addToGroups acc).map Prod.fst).Nodup ∧
    (∀ kg ∈ l.foldl addToGroups acc,
        kg.2 = (done ++ l).filter (fun t => slotKey t == kg.1)) ∧
    (∀ k, k ∈ (l.foldl addToGroups acc).map Prod.fst ↔ k ∈ (done ++ l).map slotKey) := by
  intro l
  induction l with
  | nil =>
      intro done acc h1 h2 h3
      refine ⟨h1, ?_, ?_⟩
      · intro kg hkg
        rw [List.append_nil]
        exact h2 kg hkg
      · intro k
        rw [List.append_nil]
        exact h3 k
  | cons s rest ih =>
      intro done acc h1 h2 h3
      rw [List.foldl_cons]
      have hfresh : slotKey s ∉ acc.map Prod.fst →
          done.filter (fun t => slotKey t == slotKey s) = [] := by
        intro hni
        exact filter_eq_nil_of_not_mem_map done (slotKey s) (fun hc => hni ((h3 _).2 hc))
      have h1' : ((addToGroups acc s).map Prod.fst).Nodup := by
        rw [keys_addToGroups]
        by_cases hmem : slotKey s ∈ acc.map Prod.fst
        · rw [if_pos hmem]; exact h1
        · rw [if_neg hmem]
          rw [List.nodup_append]
          exact ⟨h1, List.nodup_singleton _, by simpa using hmem⟩
      have h2' : ∀ kg ∈ addToGroups acc s,
          kg.2 = (done ++ [s]).filter (fun t => slotKey t == kg.1) :=
        snd_addToGroups s done acc h1 h2 hfresh
      have h3' : ∀ k, k ∈ (addToGroups acc s).map Prod.fst ↔
          k ∈ (done ++ [s]).map slotKey := by
        intro k
        rw [keys_addToGroups, List.map_append]
        by_cases hmem : slotKey s ∈ acc.map Prod.fst
        · rw [if_pos hmem]
          rw [h3 k]
          simp only [List.mem_append, List.map_cons, List.map_nil, List.mem_singleton]
          constructor
          · exact fun h => Or.inl h
          · rintro (h | h)
            · exact h
            · rw [h]
              exact (h3 _).1 hmem
        · rw [if_neg hmem]
          simp only [List.mem_append, List.mem_singleton, List.map_cons, List.map_nil,
            h3 k]
      have := ih (done ++ [s]) (addToGroups acc s) h1' h2' h3'
      rw [List.append_assoc] at this
      simpa using this

lemma groupSlots_spec (l : List TimetableSlot) :
    ((groupSlots l).map Prod.fst).Nodup ∧
    (∀ kg ∈ groupSlots l, kg.2 = l.filter (fun s => slotKey s == kg.1)) ∧
    (∀ k, k ∈ (groupSlots l).map Prod.fst ↔ k ∈ l.map slotKey) := by
  have := groupSlots_invariant l [] [] (by simp) (by simp) (by simp)
  simpa [groupSlots] using this

lemma foldl_double_append_length (l : List (String × List TimetableSlot)) :
    ∀ init : List Conflict,
    (l.foldl (fun acc kg => acc ++ facultyPass kg.1 kg.2 [] ++ roomPass kg.1 kg.2 []) init).length
      = init.length + (l.map (fun kg =>
          (facultyPass kg.1 kg.2 []).length + (roomPass kg.1 kg.2 []).length)).sum := by
  induction l with
  | nil => intro init; simp
  | cons kg rest ih =>
      intro init
      rw [List.foldl_cons, ih, List.map_cons, List.sum_cons]
      simp only [List.length_append]
      omega

lemma detect_conflicts_length_eq_total (l : List TimetableSlot) :
    (detect_conflicts l).length = conflictTotal l := by
  unfold detect_conflicts
  rw [foldl_double_append_length]
  obtain ⟨hnd, hsnd, hkeys⟩ := groupSlots_spec l
  rw [List.length_nil, Nat.zero_add]
  have hmapeq : (groupSlots l).map (fun kg =>
      (facultyPass kg.1 kg.2 []).length + (roomPass kg.1 kg.2 []).length) =
      (groupSlots l).map (fun kg =>
        groupConflictCount (l.filter (fun s => slotKey s == kg.1))) := by
    apply List.map_congr_left
    intro kg hkg
    rw [facultyPass_length_closed, roomPass_length_closed, hsnd kg hkg]
    rfl
  rw [hmapeq]
  have hcomp : (groupSlots l).map (fun kg =>
      groupConflictCount (l.filter (fun s => slotKey s == kg.1))) =
      ((groupSlots l).map Prod.fst).map (fun k =>
        groupConflictCount (l.filter (fun s => slotKey s == k))) := by
    rw [List.map_map]
    rfl
  rw [hcomp, ← List.sum_toFinset _ hnd]
  have hset : ((groupSlots l).map Prod.fst).toFinset = (l.map slotKey).toFinset := by
    apply Finset.ext
    intro k
    rw [List.mem_toFinset, List.mem_toFinset]
    exact hkeys k
  rw [hset]
  rfl

lemma conflictTotal_perm (l1 l2 : List TimetableSlot) (h : l1.Perm l2) :
    conflictTotal l1 = conflictTotal l2 := by
  unfold conflictTotal
  have hset : (l1.map slotKey).toFinset = (l2.map slotKey).toFinset :=
    List.toFinset_eq_of_perm _ _ (h.map slotKey)
  rw [hset]
  apply Finset.sum_congr rfl
  intro k _
  have hfil : (l1.filter (fun s => slotKey s == k)).Perm
      (l2.filter (fun s => slotKey s == k)) := h.filter _
  unfold groupConflictCount
  rw [hfil.length_eq,
    List.toFinset_eq_of_perm _ _ (hfil.map (fun s => s.faculty_id)),
    List.toFinset_eq_of_perm _ _ (hfil.map (fun s => s.room_id))]

/-- Lookup in a counter association list. -/
def assocLookup (m : List (String × ℕ)) (k : String) : Option ℕ :=
  match m with
  | [] => none
  | (k0, n) :: rest => if k = k0 then some n else assocLookup rest k

/-- Number of slots of a given faculty id. -/
def countFac (l : List TimetableSlot) (f : String) : ℕ :=
  l.countP (fun s => s.faculty_id == f)

lemma keys_assocIncr (k : String) : ∀ m : List (String × ℕ),
    (assocIncr m k).map Prod.fst =
      if k ∈ m.map Prod.fst then m.map Prod.fst else m.map Prod.fst ++ [k] := by
  intro m
  induction m with
  | nil => simp [assocIncr]
  | cons p rest ih =>
      obtain ⟨k0, n⟩ := p
      unfold assocIncr
      by_cases hk : k = k0
      · rw [if_pos hk]
        simp [hk]
      · rw [if_neg hk]
        simp only [List.map_cons, List.mem_cons]
        rw [ih]
        by_cases hmem : k ∈ rest.map Prod.fst
        · rw [if_pos hmem, if_pos (Or.inr hmem)]
        · rw [if_neg hmem, if_neg (by tauto)]
          rfl

lemma assocLookup_assocIncr (k f : String) : ∀ m : List (String × ℕ),
    assocLookup (assocIncr m k) f =
      if f = k then some ((assocLookup m k).getD 0 + 1) else assocLookup m f := by
  intro m
  induction m with
  | nil =>
      by_cases hf : f = k <;> simp [assocIncr, assocLookup, hf]
  | cons p rest ih =>
      obtain ⟨k0, n⟩ := p
      by_cases hk : k = k0
      · subst hk
        by_cases hf : f = k
        · subst hf
          simp [assocIncr, assocLookup]
        · simp [assocIncr, assocLookup, hf]
      · by_cases hf : f = k0
        · subst hf
          have hfk : ¬ f = k := fun hc => hk hc.symm
          simp [assocIncr, assocLookup, hk, hfk]
        · by_cases hfk : f = k
          · subst hfk
            simp [assocIncr, assocLookup, hk, hf, ih]
          · simp [assocIncr, assocLookup, hk, hf, hfk, ih]

lemma mem_iff_assocLookup : ∀ m : List (String × ℕ),
    (m.map Prod.fst).Nodup → ∀ p : String × ℕ,
    (p ∈ m ↔ assocLookup m p.1 = some p.2) := by
  intro m
  induction m with
  | nil => intro _ p; simp [assocLookup]
  | cons q rest ih =>
      intro hnodup p
      obtain ⟨k0, n⟩ := q
      obtain ⟨p1, p2⟩ := p
      rw [List.map_cons, List.nodup_cons] at hnodup
      unfold assocLookup
      by_cases hf : p1 = k0
      · subst hf
        rw [if_pos rfl]
        constructor
        · intro hp
          rcases List.mem_cons.1 hp with heq | hmem
          · injection heq with ha hb
            rw [hb]
          · exfalso
            have hm : p1 ∈ List.map Prod.fst rest := List.mem_map_of_mem Prod.fst hmem
            exact hnodup.1 hm
        · intro hp
          have hnp : n = p2 := by injection hp
          rw [← hnp]
          exact List.mem_cons_self _ _
      · rw [if_neg hf]
        simp only [List.mem_cons]
        rw [← ih hnodup.2 (p1, p2)]
        constructor
        · rintro (hp | hp)
          · exfalso
            apply hf
            injection hp with h1 h2
          · exact hp
        · exact fun hp => Or.inr hp

lemma countFac_append_singleton (done : List TimetableSlot) (s : TimetableSlot)
    (f : String) :
    countFac (done ++ [s]) f = countFac done f + (if s.faculty_id == f then 1 else 0) := by
  unfold countFac
  rw [List.countP_append]
  simp [List.countP_cons]

lemma wd_foldl_invariant :
    ∀ (l : List TimetableSlot) (acc : List (String × ℕ)) (done : List TimetableSlot),
    (acc.map Prod.fst).Nodup →
    (∀ f, assocLookup acc f =
      if f ≠ "" ∧ 0 < countFac done f then some (countFac done f) else none) →
    (((l.foldl (fun m s => if s.faculty_id ≠ "" then assocIncr m s.faculty_id else m)
        acc).map Prod.fst).Nodup ∧
     ∀ f, assocLookup
        (l.foldl (fun m s => if s.faculty_id ≠ "" then assocIncr m s.faculty_id else m) acc) f =
      if f ≠ "" ∧ 0 < countFac (done ++ l) f then some (countFac (done ++ l) f) else none) := by
  intro l
  induction l with
  | nil =>
      intro acc done h1 h2
      refine ⟨h1, ?_⟩
      intro f
      rw [List.append_nil]
      exact h2 f
  | cons s rest ih =>
      intro acc done h1 h2
      rw [List.foldl_cons]
      by_cases hfid : s.faculty_id = ""
      · rw [if_neg (by simp [hfid])]
        have h2a : ∀ f, assocLookup acc f =
            if f ≠ "" ∧ 0 < countFac (done ++ [s]) f
            then some (countFac (done ++ [s]) f) else none := by
          intro f
          by_cases hf : f = ""
          · subst hf
            rw [h2 ("")]
            simp
          · have hcnt : countFac (done ++ [s]) f = countFac done f := by
              rw [countFac_append_singleton]
              have hsf : (s.faculty_id == f) = false := by
                rw [hfid]
                simp
                exact fun hc => hf hc.symm
              rw [hsf]
              simp
            rw [hcnt]
            exact h2 f
        have := ih acc (done ++ [s]) h1 h2a
        rwa [List.append_assoc] at this
      · rw [if_pos (by simp [hfid])]
        have h1a : ((assocIncr acc s.faculty_id).map Prod.fst).Nodup := by
          rw [keys_assocIncr]
          by_cases hmem : s.faculty_id ∈ acc.map Prod.fst
          · rw [if_pos hmem]
            exact h1
          · rw [if_neg hmem, List.nodup_append]
            exact ⟨h1, List.nodup_singleton _, by simpa using hmem⟩
        have h2a : ∀ f, assocLookup (assocIncr acc s.faculty_id) f =
            if f ≠ "" ∧ 0 < countFac (done ++ [s]) f
            then some (countFac (done ++ [s]) f) else none := by
          intro f
          rw [assocLookup_assocIncr]
          by_cases hfk : f = s.faculty_id
          · subst hfk
            rw [if_pos rfl, h2 s.faculty_id]
            have hcnt : countFac (done ++ [s]) s.faculty_id =
                countFac done s.faculty_id + 1 := by
              rw [countFac_append_singleton]
              simp
            rw [hcnt]
            by_cases hpos : 0 < countFac done s.faculty_id
            · rw [if_pos ⟨hfid, hpos⟩]
              simp only [Option.getD_some]
              rw [if_pos ⟨hfid, by omega⟩]
            · rw [if_neg (by tauto)]
              simp only [Option.getD_none]
              have hz : countFac done s.faculty_id = 0 := by omega
              rw [hz]
              rw [if_pos ⟨hfid, by omega⟩]
          · rw [if_neg hfk, h2 f]
            have hcnt : countFac (done ++ [s]) f = countFac done f := by
              rw [countFac_append_singleton]
              have hsf : (s.faculty_id == f) = false := by
                simp
                exact fun hc => hfk hc.symm
              rw [hsf]
              simp
            rw [hcnt]
        have := ih (assocIncr acc s.faculty_id) (done ++ [s]) h1a h2a
        rwa [List.append_assoc] at this


lemma wd_spec (l : List TimetableSlot) :
    ((calculate_workload_distribution l).map Prod.fst).Nodup ∧
    ∀ f, assocLookup (calculate_workload_distribution l) f =
      if f ≠ "" ∧ 0 < countFac l f then some (countFac l f) else none := by
  have := wd_foldl_invariant l [] [] (by simp)
    (by
      intro f
      simp [assocLookup, countFac])
  simpa [calculate_workload_distribution] using this

lemma wd_perm (l1 l2 : List TimetableSlot) (h : l1.Perm l2) :
    (calculate_workload_distribution l1).Perm (calculate_workload_distribution l2) := by
  obtain ⟨hnd1, hlk1⟩ := wd_spec l1
  obtain ⟨hnd2, hlk2⟩ := wd_spec l2
  rw [List.perm_ext_iff_of_nodup (hnd1.of_map) (hnd2.of_map)]
  intro p
  rw [mem_iff_assocLookup _ hnd1 p, mem_iff_assocLookup _ hnd2 p, hlk1, hlk2]
  have hcnt : countFac l1 p.1 = countFac l2 p.1 := h.countP_eq _
  rw [hcnt]

lemma score_core_congr (c1 c2 : List Conflict) (wd1 wd2 : List (String × ℕ))
    (hc : c1.length = c2.length) (hwd : wd1.Perm wd2) :
    score_core c1 wd1 = score_core c2 wd2 := by
  simp only [score_core]
  rw [hc]
  by_cases h1 : wd1 = []
  · subst h1
    have h2 : wd2 = [] := List.Perm.eq_nil hwd.symm
    subst h2
    rfl
  · have h2 : wd2 ≠ [] := by
      intro hh
      subst hh
      exact h1 (List.Perm.eq_nil hwd)
    have he1 : wd1.isEmpty = false := by simpa [List.isEmpty_iff] using h1
    have he2 : wd2.isEmpty = false := by simpa [List.isEmpty_iff] using h2
    have hme1 : (wd1.map (fun p => ((p.2 : ℚ)))).isEmpty = false := by
      simp [List.isEmpty_iff, h1]
    have hme2 : (wd2.map (fun p => ((p.2 : ℚ)))).isEmpty = false := by
      simp [List.isEmpty_iff, h2]
    simp only [he1, he2, hme1, hme2, Bool.false_eq_true, if_false]
    have hm : (wd1.map (fun p => ((p.2 : ℚ)))).Perm (wd2.map (fun p => ((p.2 : ℚ)))) :=
      hwd.map _
    have hsum : (wd1.map (fun p => ((p.2 : ℚ)))).sum =
        (wd2.map (fun p => ((p.2 : ℚ)))).sum := hm.sum_eq
    have hlen : (wd1.map (fun p => ((p.2 : ℚ)))).length =
        (wd2.map (fun p => ((p.2 : ℚ)))).length := hm.length_eq
    rw [hsum, hlen, List.Perm.sum_eq (hm.map _)]

/-- Claim C9: for every slot list and every permutation of it, the
conflict detector emits the same number of conflicts, and the shared
scorer — applied to the detected conflicts together with the (also
order-independent) workload distribution — returns the same score. -/
theorem C9_detector_order_independence (l1 l2 : List TimetableSlot)
    (h : l1.Perm l2) :
    (detect_conflicts l1).length = (detect_conflicts l2).length ∧
    score_core (detect_conflicts l1) (calculate_workload_distribution l1) =
      score_core (detect_conflicts l2) (calculate_workload_distribution l2) := by
  have hlen : (detect_conflicts l1).length = (detect_conflicts l2).length := by
    rw [detect_conflicts_length_eq_total, detect_conflicts_length_eq_total]
    exact conflictTotal_perm _ _ h
  exact ⟨hlen, score_core_congr _ _ _ _ hlen (wd_perm _ _ h)⟩

/-- Witness for C9 at the concrete two-slot swap. -/
theorem C9_detector_order_independence_witness :
    (detect_conflicts [slotA, slotB]).length =
      (detect_conflicts [slotB, slotA]).length ∧
    score_core (detect_conflicts [slotA, slotB])
        (calculate_workload_distribution [slotA, slotB]) =
      score_core (detect_conflicts [slotB, slotA])
        (calculate_workload_distribution [slotB, slotA]) :=
  C9_detector_order_independence [slotA, slotB] [slotB, slotA]
    (List.Perm.swap slotB slotA [])

end SmartSched
